import Mathlib

/-!
# ovo-energy-prometheus-gauge: the scan-and-publish pipeline

A shallow embedding of `ovo.go` (`Ovo.Scan`, `Ovo.Login`, `Ovo.LoadPoints`,
`Ovo.ScanPoint`, `Ovo.EmitAge`) together with the parts of the outside world the
code talks to:

* the HTTP client: every `Client.Do` is answered from a script of replies, one
  script per endpoint, indexed by how many calls to that endpoint the current
  `Scan` has already made;
* JSON decoding: a reply body carries the outcome of decoding it as each of the
  three shapes the code asks for;
* the Prometheus default registry: the list of gauges `promauto.NewGauge` has
  registered so far;
* `time.Parse` for the fixed layout `2006-01-02T03:04:05` and `time.Since`.

A `float64` is never computed with, only stored, so it is kept symbolic.
-/

namespace OvoGauge

deriving instance DecidableEq for Except

/-! ## Data model (ovo.go lines 17-45) -/

/-- The `SupplyPoint` struct. -/
structure SupplyPoint where
  Mpxn : String
  Fuel : String
  Start : String
  Msn : String
deriving DecidableEq, Repr

/-- A `float64` handed to `gauge.Set`. `bits b` is a float given by its IEEE-754 bit
pattern (a decoded JSON number, or the initial value 0 of a fresh gauge);
`seconds d` is `Duration.Seconds()` of a duration of `d` nanoseconds. -/
inductive Float64 where
  | bits (b : Nat)
  | seconds (d : Int)
deriving DecidableEq, Repr

/-- The `GasReading` struct. -/
structure GasReading where
  Volume : Float64
  Time : String
deriving DecidableEq, Repr

/-- The `ElectricityTierReading` struct. -/
structure ElectricityTierReading where
  Reading : Float64
  Label : String
deriving DecidableEq, Repr

/-- The `ElectricityReading` struct. -/
structure ElectricityReading where
  Tiers : List ElectricityTierReading
  Time : String
deriving DecidableEq, Repr

/-- The `prometheus.GaugeOpts` passed to `promauto.NewGauge`: metric name and constant labels. -/
structure GaugeOpts where
  Name : String
  ConstLabels : List (String × String)
deriving DecidableEq, Repr

/-- A registered gauge. `id` is its position in registration order and stands for the
pointer returned by `promauto.NewGauge`; `value` is what the last `Set` stored (0 at first). -/
structure Gauge where
  id : Nat
  opts : GaugeOpts
  value : Float64
deriving DecidableEq, Repr

/-- The errors built by the `fmt.Errorf` calls of ovo.go, one constructor per call site. -/
inductive Error where
  /-- Lines 105 and 121: "failed to make request: %v". -/
  | makeRequest (cause : String)
  /-- Line 110: "login request failed: %v %v". -/
  | loginRequestFailed (status : Nat) (body : String)
  /-- Line 129: "supply points query failed: %v %v". -/
  | supplyPointsQueryFailed (status : Nat) (body : String)
  /-- Line 134: "failed to decode supply point data: %v". -/
  | decodeSupplyPoints (cause : String)
  /-- Line 145: "failed to query readings: %v %v" (transport failure). -/
  | queryReadings (cause : String)
  /-- Line 153: "failed to query readings: %v %v %v" (status other than 200). -/
  | queryReadingsStatus (status : Nat) (body : String)
  /-- Line 159: "failed to decode gas reading data: %v". -/
  | decodeGasReadings (cause : String)
  /-- Line 190: the electricity branch, which reuses the gas wording. -/
  | decodeElectricityReadings (cause : String)
  /-- Line 227: "failed to parse reading time '%s': %v". -/
  | parseReadingTime (date : String) (cause : String)
  /-- Lines 183 and 215: "failed to emit age of reading: %v". -/
  | emitAge (cause : Error)
  /-- Line 72: "failed to login to ovo: %v". -/
  | failedToLogin (cause : Error)
  /-- Line 76: "failed to load points: %v". -/
  | failedToLoadPoints (cause : Error)
  /-- Line 81: "failed to scan point: %v". -/
  | failedToScanPoint (cause : Error)
deriving DecidableEq, Repr

/-! ## The outside world -/

/-- The outcome of `json.NewDecoder(resp.Body).Decode(&x)`. -/
inductive Decoded (α : Type) where
  | ok (value : α)
  | error (cause : String)
deriving DecidableEq, Repr

/-- A response body: its raw text (what `io.ReadAll` yields) and the outcome of decoding it
as `[]SupplyPoint`, `[]GasReading` and `[]ElectricityReading`. -/
structure Body where
  text : String
  points : Decoded (List SupplyPoint)
  gas : Decoded (List GasReading)
  electricity : Decoded (List ElectricityReading)
deriving DecidableEq, Repr

/-- What `Client.Do` returns: a transport failure, or a response with a status code. -/
inductive Reply where
  | failure (cause : String)
  | response (StatusCode : Nat) (body : Body)
deriving DecidableEq, Repr

/-- An instant (`time.Time` in UTC): seconds since the Unix epoch and nanoseconds within the second. -/
structure Instant where
  sec : Int
  nsec : Nat
deriving DecidableEq, Repr

/-- The world one `Scan` runs against. `login k`, `points k` and `readings k` answer the
`k`-th request (counting from 0) that this `Scan` sends to the login, supply-points and
readings endpoints; `now k` is the clock read by `time.Since` during the `k`-th `ScanPoint`. -/
structure World where
  login : Nat → Reply
  points : Nat → Reply
  readings : Nat → Reply
  now : Nat → Instant

/-- What the code did, in order. Instrumentation only: the Go program keeps no such log. -/
inductive Event where
  /-- The 3-second `time.Sleep` before a retry (line 67). -/
  | sleep
  /-- A call of `Login`. -/
  | login
  /-- A call of `LoadPoints`. -/
  | loadPoints
  /-- A call of `ScanPoint` for the given point. -/
  | scanPoint (point : SupplyPoint)
  /-- A `gauge.Set` in `ScanPoint` (lines 180 and 212) on the gauge cached under `cacheName`. -/
  | setValue (cacheName : String) (v : Float64)
  /-- The `gauge.Set` in `EmitAge` (line 242) on the gauge cached under `cacheName`. -/
  | setAge (cacheName : String) (v : Float64)
deriving DecidableEq, Repr

/-- The `Ovo` struct with what surrounds it. `LoggedIn` and `GaugeCache` are the Go fields
(`AccountInfo` is constant and `Client` only carries cookies; neither influences control
flow). Every gauge pointer is held by exactly one entry of `GaugeCache`, so an entry holds
the gauge itself. `registered` is the Prometheus default registry: the options of every
gauge `promauto.NewGauge` has created, oldest first. `trace` is instrumentation. -/
structure Ovo where
  LoggedIn : Bool
  GaugeCache : List (String × Gauge)
  registered : List GaugeOpts
  trace : List Event
deriving DecidableEq, Repr

/-! ## The gauge cache: a Go `map[string]prometheus.Gauge` -/

/-- Map lookup `gauge, ok := o.GaugeCache[cacheName]`. -/
def cacheGet : List (String × Gauge) → String → Option Gauge
  | [], _ => none
  | (k, g) :: rest, cacheName => if k = cacheName then some g else cacheGet rest cacheName

/-- Map assignment `o.GaugeCache[cacheName] = gauge`. -/
def cachePut : List (String × Gauge) → String → Gauge → List (String × Gauge)
  | [], cacheName, gauge => [(cacheName, gauge)]
  | (k, g) :: rest, cacheName, gauge =>
    if k = cacheName then (k, gauge) :: rest else (k, g) :: cachePut rest cacheName gauge

/-- The keys of the map. -/
def cacheKeys (cache : List (String × Gauge)) : List String :=
  cache.map Prod.fst

/-- The block repeated at lines 167-179, 199-211 and 230-241: look the gauge up under
`cacheName`; on a miss create it with `promauto.NewGauge(opts)` (which registers it) and
store it in the cache. `promauto.NewGauge` panics when a gauge with the same name and
constant labels is registered already; `Scan_sound` below shows that the code never asks
for that, so registration is taken to succeed. -/
def getOrCreate (o : Ovo) (cacheName : String) (opts : GaugeOpts) : Ovo × Gauge :=
  match cacheGet o.GaugeCache cacheName with
  | some gauge => (o, gauge)
  | none =>
    let gauge : Gauge := { id := o.registered.length, opts := opts, value := Float64.bits 0 }
    ({ o with GaugeCache := cachePut o.GaugeCache cacheName gauge,
              registered := o.registered ++ [opts] }, gauge)

/-- The call `gauge.Set(v)` on the gauge held under `cacheName`: it overwrites the value. -/
def gaugeSet (o : Ovo) (cacheName : String) (v : Float64) : Ovo :=
  match cacheGet o.GaugeCache cacheName with
  | some gauge => { o with GaugeCache := cachePut o.GaugeCache cacheName { gauge with value := v } }
  | none => o

/-- The current value of the gauge cached under `cacheName`, if there is one. -/
def gaugeValue (o : Ovo) (cacheName : String) : Option Float64 :=
  (cacheGet o.GaugeCache cacheName).map Gauge.value

/-! ## `strings.ToLower` -/

/-- The function `strings.ToLower`. Only its comparison with "gas" matters, and the only
runes that lower to `g`, `a`, `s` are those letters and their ASCII capitals. -/
def toLower (s : String) : String :=
  ⟨s.data.map Char.toLower⟩

/-! ## `time.Parse` with the layout `2006-01-02T03:04:05`, and `time.Since`

The layout splits into the chunks `2006` (four-digit year), `01` (two-digit month),
`02` (two-digit day), `03` (two-digit hour of the 12-hour clock), `04` (minute) and
`05` (second), separated by the literals `-`, `-`, `T`, `:`, `:`. The functions below
follow `time.Parse` of the Go standard library chunk by chunk. -/

/-- The value of a decimal digit. -/
def digitVal (c : Char) : Nat :=
  c.toNat - '0'.toNat

/-- Go's `getnum`: a one- or two-digit number; with `fixed` it must have two digits. -/
def getnum (s : List Char) (fixed : Bool) : Option (Nat × List Char) :=
  match s with
  | [] => none
  | [c0] => if c0.isDigit && !fixed then some (digitVal c0, []) else none
  | c0 :: c1 :: rest =>
    if !c0.isDigit then none
    else if !c1.isDigit then (if fixed then none else some (digitVal c0, c1 :: rest))
    else some (digitVal c0 * 10 + digitVal c1, rest)

/-- Go's `skip` for a literal without spaces: the value must start with the literal. -/
def skip : List Char → List Char → Option (List Char)
  | value, [] => some value
  | [], _ :: _ => none
  | v :: value, p :: literal => if v = p then skip value literal else none

/-- Go's `atoi` on a run of decimal digits. -/
def atoiDigits (ds : List Char) : Nat :=
  ds.foldl (fun acc c => acc * 10 + digitVal c) 0

/-- The chunk `2006`: exactly four digits. -/
def getYear (s : List Char) : Option (Nat × List Char) :=
  match s with
  | c0 :: c1 :: c2 :: c3 :: rest =>
    if c0.isDigit && c1.isDigit && c2.isDigit && c3.isDigit
    then some (atoiDigits [c0, c1, c2, c3], rest) else none
  | _ => none

/-- The special case after the seconds chunk: a fractional second in the input although
the layout has none. Returns the nanoseconds (`parseNanoseconds`, at most nine digits are
significant) and what is left of the input. -/
def getFraction (value : List Char) : Nat × List Char :=
  match value with
  | c :: d :: rest =>
    if (c = '.' || c = ',') && d.isDigit then
      let digits := (d :: rest).takeWhile Char.isDigit
      let used := digits.take 9
      (atoiDigits used * 10 ^ (9 - used.length), (d :: rest).drop digits.length)
    else (0, value)
  | _ => (0, value)

/-- Go's `isLeap`. -/
def isLeap (year : Nat) : Bool :=
  year % 4 == 0 && (year % 100 != 0 || year % 400 == 0)

/-- Go's `daysBefore` table: days in a non-leap year before month `m + 1`. -/
def daysBefore (m : Nat) : Nat :=
  [0, 31, 59, 90, 120, 151, 181, 212, 243, 273, 304, 334, 365].getD m 0

/-- Go's `daysIn`. -/
def daysIn (month year : Nat) : Nat :=
  if month = 2 && isLeap year then 29 else daysBefore month - daysBefore (month - 1)

/-- Go's `time.Date` in UTC for fields already in range: the instant of the civil time. -/
def Date (year month day hour min sec nsec : Nat) : Instant :=
  let y1 : Int := (year : Int) - 1
  let leaps : Int := y1 / 4 - y1 / 100 + y1 / 400
  let days : Int := 365 * ((year : Int) - 1970) + (leaps - 477) + daysBefore (month - 1)
    + (if isLeap year && 3 ≤ month then 1 else 0) + ((day : Int) - 1)
  { sec := days * 86400 + hour * 3600 + min * 60 + sec, nsec := nsec }

/-- The call `time.Parse("2006-01-02T03:04:05", value)`. On failure the result names the cause. -/
def timeParse (value : String) : Except String Instant :=
  match getYear value.data with
  | none => .error "cannot parse year"
  | some (year, v) =>
  match skip v ['-'] with
  | none => .error "cannot parse literal"
  | some v =>
  match getnum v true with
  | none => .error "cannot parse month"
  | some (month, v) =>
  if month = 0 ∨ 12 < month then .error "month out of range" else
  match skip v ['-'] with
  | none => .error "cannot parse literal"
  | some v =>
  match getnum v true with
  | none => .error "cannot parse day"
  | some (day, v) =>
  match skip v ['T'] with
  | none => .error "cannot parse literal"
  | some v =>
  match getnum v true with
  | none => .error "cannot parse hour"
  | some (hour, v) =>
  if 12 < hour then .error "hour out of range" else
  match skip v [':'] with
  | none => .error "cannot parse literal"
  | some v =>
  match getnum v true with
  | none => .error "cannot parse minute"
  | some (min, v) =>
  if 60 ≤ min then .error "minute out of range" else
  match skip v [':'] with
  | none => .error "cannot parse literal"
  | some v =>
  match getnum v true with
  | none => .error "cannot parse second"
  | some (sec, v) =>
  if 60 ≤ sec then .error "second out of range" else
  match getFraction v with
  | (nsec, v) =>
  if v ≠ [] then .error "extra text" else
  if day < 1 ∨ daysIn month year < day then .error "day out of range" else
  .ok (Date year month day hour min sec nsec)

/-- The largest `time.Duration`, in nanoseconds. -/
def maxDuration : Int := 2 ^ 63 - 1

/-- The smallest `time.Duration`, in nanoseconds. -/
def minDuration : Int := -(2 ^ 63)

/-- The call `t.Sub(u)`: the difference in nanoseconds, saturating at the `int64` bounds. -/
def Sub (t u : Instant) : Int :=
  let d : Int := (t.sec - u.sec) * 1000000000 + ((t.nsec : Int) - u.nsec)
  if d < minDuration then minDuration else if maxDuration < d then maxDuration else d

/-! ## The operations of ovo.go -/

/-- Number of `Login` calls recorded in a trace. -/
def loginCalls (trace : List Event) : Nat :=
  trace.count Event.login

/-- Number of `LoadPoints` calls recorded in a trace. -/
def loadPointsCalls (trace : List Event) : Nat :=
  trace.count Event.loadPoints

/-- Whether an event is a call of `ScanPoint`. -/
def isScanPoint : Event → Bool
  | .scanPoint _ => true
  | _ => false

/-- Number of `ScanPoint` calls recorded in a trace. -/
def scanPointCalls (trace : List Event) : Nat :=
  trace.countP isScanPoint

/-- The method `Ovo.Login` (lines 92-115). -/
def Login (w : World) (o : Ovo) : Ovo × Option Error :=
  let o1 := { o with trace := o.trace ++ [Event.login] }
  match w.login (loginCalls o.trace) with
  | .failure cause => (o1, some (.makeRequest cause))
  | .response StatusCode body =>
    if StatusCode ≠ 200 then (o1, some (.loginRequestFailed StatusCode body.text))
    else ({ o1 with LoggedIn := true }, none)

/-- The method `Ovo.LoadPoints` (lines 117-138). -/
def LoadPoints (w : World) (o : Ovo) : Ovo × Except Error (List SupplyPoint) :=
  let o1 := { o with trace := o.trace ++ [Event.loadPoints] }
  match w.points (loadPointsCalls o.trace) with
  | .failure cause => (o1, .error (.makeRequest cause))
  | .response StatusCode body =>
    if StatusCode ≠ 200 then
      let o2 := if StatusCode = 401 ∨ StatusCode = 403 then { o1 with LoggedIn := false } else o1
      (o2, .error (.supplyPointsQueryFailed StatusCode body.text))
    else
      match body.points with
      | .error cause => (o1, .error (.decodeSupplyPoints cause))
      | .ok points => (o1, .ok points)

/-- The method `Ovo.EmitAge` (lines 224-244); `now` is the clock read by `time.Since`. -/
def EmitAge (now : Instant) (o : Ovo) (point : SupplyPoint) (date : String) : Ovo × Option Error :=
  match timeParse date with
  | .error cause => (o, some (.parseReadingTime date cause))
  | .ok readingDate =>
    let cacheName := point.Mpxn ++ "_age"
    let (o1, _) := getOrCreate o cacheName
      { Name := "ovo_reading_age_seconds",
        ConstLabels := [("fuel", point.Fuel), ("mpxn", point.Mpxn), ("msn", point.Msn)] }
    let v := Float64.seconds (Sub now readingDate)
    let o2 := gaugeSet o1 cacheName v
    ({ o2 with trace := o2.trace ++ [Event.setAge cacheName v] }, none)

/-- One pass of the loop body at lines 197-213 for one tier. -/
def setTier (o : Ovo) (point : SupplyPoint) (tier : ElectricityTierReading) : Ovo :=
  let cacheName := point.Mpxn ++ "_" ++ tier.Label
  let (o1, _) := getOrCreate o cacheName
    { Name := "ovo_reading_last",
      ConstLabels := [("fuel", point.Fuel), ("tier", tier.Label), ("mpxn", point.Mpxn),
        ("msn", point.Msn)] }
  let o2 := gaugeSet o1 cacheName tier.Reading
  { o2 with trace := o2.trace ++ [Event.setValue cacheName tier.Reading] }

/-- The loop `for _, tier := range reading.Tiers` at lines 197-213. -/
def setTiers (point : SupplyPoint) : List ElectricityTierReading → Ovo → Ovo
  | [], o => o
  | tier :: rest, o => setTiers point rest (setTier o point tier)

/-- Lines 166-180: publish the volume of a gas reading. -/
def setGas (o : Ovo) (point : SupplyPoint) (reading : GasReading) : Ovo :=
  let cacheName := point.Mpxn
  let (o1, _) := getOrCreate o cacheName
    { Name := "ovo_reading_last",
      ConstLabels := [("fuel", point.Fuel), ("tier", "default"), ("mpxn", point.Mpxn),
        ("msn", point.Msn)] }
  let o2 := gaugeSet o1 cacheName reading.Volume
  { o2 with trace := o2.trace ++ [Event.setValue cacheName reading.Volume] }

/-- Lines 181-185 and 214-218: emit the age when the reading has a timestamp. -/
def emitAgeIfTimed (now : Instant) (o : Ovo) (point : SupplyPoint) (time : String) :
    Ovo × Option Error :=
  if time ≠ "" then
    match EmitAge now o point time with
    | (o1, some err) => (o1, some (.emitAge err))
    | (o1, none) => (o1, none)
  else (o, none)

/-- The method `Ovo.ScanPoint` (lines 140-222). -/
def ScanPoint (w : World) (o : Ovo) (point : SupplyPoint) : Ovo × Option Error :=
  let k := scanPointCalls o.trace
  let o1 := { o with trace := o.trace ++ [Event.scanPoint point] }
  match w.readings k with
  | .failure cause => (o1, some (.queryReadings cause))
  | .response StatusCode body =>
    if StatusCode ≠ 200 then
      let o2 := if StatusCode = 401 ∨ StatusCode = 403 then { o1 with LoggedIn := false } else o1
      (o2, some (.queryReadingsStatus StatusCode body.text))
    else if toLower point.Fuel = "gas" then
      match body.gas with
      | .error cause => (o1, some (.decodeGasReadings cause))
      | .ok [] => (o1, none)
      | .ok (reading :: _) => emitAgeIfTimed (w.now k) (setGas o1 point reading) point reading.Time
    else
      match body.electricity with
      | .error cause => (o1, some (.decodeElectricityReadings cause))
      | .ok [] => (o1, none)
      | .ok (reading :: _) =>
        emitAgeIfTimed (w.now k) (setTiers point reading.Tiers o1) point reading.Time

/-- The loop `for _, point := range points` at lines 79-84: a failing point records
`lastErr` and the loop goes on with the next point. -/
def scanPoints (w : World) : List SupplyPoint → Ovo → Option Error → Ovo × Option Error
  | [], o, lastErr => (o, lastErr)
  | point :: rest, o, lastErr =>
    match ScanPoint w o point with
    | (o1, some err) => scanPoints w rest o1 (some (.failedToScanPoint err))
    | (o1, none) => scanPoints w rest o1 lastErr

/-- The loop `for i := 0; i < 3; i++` at lines 65-88, with `n` iterations left. After the
points loop the code assigns `lastErr = nil` and breaks (lines 85-86). -/
def scanLoop (w : World) : Nat → Ovo → Option Error → Ovo × Option Error
  | 0, o, lastErr => (o, lastErr)
  | n + 1, o, lastErr =>
    let o1 := if lastErr.isSome then { o with trace := o.trace ++ [Event.sleep] } else o
    match (if o1.LoggedIn then (o1, none) else Login w o1) with
    | (o2, some err) => (o2, some (.failedToLogin err))
    | (o2, none) =>
      match LoadPoints w o2 with
      | (o3, .error err) => scanLoop w n o3 (some (.failedToLoadPoints err))
      | (o3, .ok points) => ((scanPoints w points o3 lastErr).1, none)

/-- The method `Ovo.Scan` (lines 47-90). Creating the HTTP client and the empty cache
(lines 50-62) cannot fail and leaves the modelled state as it is; the trace starts afresh. -/
def Scan (w : World) (o : Ovo) : Ovo × Option Error :=
  scanLoop w 3 { o with trace := [] } none

/-! ## Vocabulary for the statements -/

/-- The `gauge.Set` calls made by `ScanPoint` itself (value gauges), in order. -/
def valueSets : List Event → List (String × Float64)
  | [] => []
  | .setValue cacheName v :: rest => (cacheName, v) :: valueSets rest
  | _ :: rest => valueSets rest

/-- The `gauge.Set` calls made by `EmitAge` (age gauges), in order. -/
def ageSets : List Event → List (String × Float64)
  | [] => []
  | .setAge cacheName v :: rest => (cacheName, v) :: ageSets rest
  | _ :: rest => ageSets rest

/-- The error `Login` returns for a reply, `none` when it succeeds (lines 103-114). -/
def loginResult : Reply → Option Error
  | .failure cause => some (.makeRequest cause)
  | .response StatusCode body =>
    if StatusCode ≠ 200 then some (.loginRequestFailed StatusCode body.text) else none

/-- What `LoadPoints` returns for a reply (lines 119-137). -/
def loadPointsResult : Reply → Except Error (List SupplyPoint)
  | .failure cause => .error (.makeRequest cause)
  | .response StatusCode body =>
    if StatusCode ≠ 200 then .error (.supplyPointsQueryFailed StatusCode body.text)
    else match body.points with
      | .error cause => .error (.decodeSupplyPoints cause)
      | .ok points => .ok points

/-- A run of later `ScanPoint` calls, each against its own world. -/
def scanMany (calls : List (World × SupplyPoint)) (o : Ovo) : Ovo :=
  calls.foldl (fun s c => (ScanPoint c.1 s c.2).1) o

/-- The three forms of metric identity the code publishes: the value of a gas point
(mpxn, no tier, kind value), the value of one electricity tier (mpxn, tier label, kind
value), and the age of a point's reading (mpxn, no tier, kind age). -/
inductive MetricIdentity where
  | gasValue (mpxn : String)
  | tierValue (mpxn : String) (label : String)
  | age (mpxn : String)
deriving DecidableEq, Repr

/-- The cache key of an identity: `cacheName` at lines 166, 198 and 229. -/
def MetricIdentity.cacheName : MetricIdentity → String
  | .gasValue mpxn => mpxn
  | .tierValue mpxn label => mpxn ++ "_" ++ label
  | .age mpxn => mpxn ++ "_age"

/-- The mpxn of an identity. -/
def MetricIdentity.mpxn : MetricIdentity → String
  | .gasValue mpxn => mpxn
  | .tierValue mpxn _ => mpxn
  | .age mpxn => mpxn

/-- An identity whose mpxn has no underscore and whose tier label, if any, is not "age". -/
def MetricIdentity.Plain : MetricIdentity → Prop
  | .gasValue mpxn => '_' ∉ mpxn.data
  | .tierValue mpxn label => '_' ∉ mpxn.data ∧ label ≠ "age"
  | .age mpxn => '_' ∉ mpxn.data

/-- The decimal digit `k` as a character. -/
def digitChar (k : Nat) : Char :=
  Char.ofNat (48 + k)

/-- A number below 100 written with two digits. -/
def twoDigits (n : Nat) : List Char :=
  [digitChar (n / 10), digitChar (n % 10)]

/-- A number below 10000 written with four digits. -/
def fourDigits (n : Nat) : List Char :=
  [digitChar (n / 1000), digitChar (n / 100 % 10), digitChar (n / 10 % 10), digitChar (n % 10)]

/-- The timestamp of shape YYYY-MM-DDTHH:MM:SS for the given fields. -/
def stamp (year month day hour min sec : Nat) : String :=
  ⟨fourDigits year ++ '-' :: twoDigits month ++ '-' :: twoDigits day ++ 'T' :: twoDigits hour
    ++ ':' :: twoDigits min ++ ':' :: twoDigits sec⟩

/-- The value of a constant label of a gauge. -/
def labelOf (opts : GaugeOpts) (name : String) : String :=
  (opts.ConstLabels.lookup name).getD ""

/-- The cache key under which the code stores a gauge with these options. -/
def keyOf (opts : GaugeOpts) : String :=
  if opts.Name = "ovo_reading_age_seconds" then labelOf opts "mpxn" ++ "_age"
  else if toLower (labelOf opts "fuel") = "gas" then labelOf opts "mpxn"
  else labelOf opts "mpxn" ++ "_" ++ labelOf opts "tier"

/-- The registry is sound: no two registered gauges have the same name and constant labels
(so `promauto.NewGauge` has never panicked on a duplicate), and the cache holds an entry
under the key of every registered gauge. -/
def RegistrySound (o : Ovo) : Prop :=
  o.registered.Nodup ∧ ∀ opts ∈ o.registered, ∃ g, cacheGet o.GaugeCache (keyOf opts) = some g

/-! ## Concrete runs used as witnesses and counterexamples -/

/-- A freshly started `Ovo`: not logged in, empty cache, nothing registered. -/
def freshOvo : Ovo :=
  { LoggedIn := false, GaugeCache := [], registered := [], trace := [] }

/-- A body that decodes to the empty list in every shape. -/
def noBody : Body :=
  { text := "", points := .ok [], gas := .ok [], electricity := .ok [] }

/-- A gas supply point. -/
def gasPoint : SupplyPoint :=
  { Mpxn := "7401", Fuel := "GAS", Start := "2020-01-01", Msn := "G4A" }

/-- An electricity supply point. -/
def electricityPoint : SupplyPoint :=
  { Mpxn := "1900", Fuel := "ELECTRICITY", Start := "2020-01-01", Msn := "E7B" }

/-- The float64 bit pattern of 1.0. -/
def one : Float64 := Float64.bits 4607182418800017408

/-- The float64 bit pattern of 2.0. -/
def two : Float64 := Float64.bits 4611686018427387904

/-- A world where login always succeeds and the other endpoints always give the same
reply; the clock stands at 2023-06-15T02:00:00 UTC. -/
def steadyWorld (points readings : Reply) : World :=
  { login := fun _ => .response 200 noBody,
    points := fun _ => points,
    readings := fun _ => readings,
    now := fun _ => { sec := 1686794400, nsec := 0 } }

/-- Two gas readings, the newer one first, timestamped one hour before the clock. -/
def gasReadings : List GasReading :=
  [{ Volume := two, Time := "2023-06-15T01:00:00" }, { Volume := one, Time := "2023-06-14T01:00:00" }]

/-- A reply 200 carrying `gasReadings`. -/
def gasReply : Reply :=
  .response 200 { noBody with gas := .ok gasReadings }

/-- An electricity reading with two tiers that carry the same label. -/
def repeatedTierReading : ElectricityReading :=
  { Tiers := [{ Reading := one, Label := "day" }, { Reading := two, Label := "day" }], Time := "" }

/-- A reply 200 carrying `repeatedTierReading`. -/
def repeatedTierReply : Reply :=
  .response 200 { noBody with electricity := .ok [repeatedTierReading] }

/-- An electricity reading with a day and a night tier. -/
def dayNightReading : ElectricityReading :=
  { Tiers := [{ Reading := one, Label := "day" }, { Reading := two, Label := "night" }],
    Time := "2023-06-15T01:00:00" }

/-- A reply 200 carrying `dayNightReading`. -/
def dayNightReply : Reply :=
  .response 200 { noBody with electricity := .ok [dayNightReading] }

/-- An electricity reading whose only tier is labelled "age" and whose timestamp is malformed. -/
def ageTierReading : ElectricityReading :=
  { Tiers := [{ Reading := one, Label := "age" }], Time := "yesterday" }

/-- A reply 200 carrying `ageTierReading`. -/
def ageTierReply : Reply :=
  .response 200 { noBody with electricity := .ok [ageTierReading] }

/-- An electricity reading whose only tier is labelled "age", timestamped one hour before
the clock of `steadyWorld`. -/
def timedAgeTierReading : ElectricityReading :=
  { Tiers := [{ Reading := one, Label := "age" }], Time := "2023-06-15T01:00:00" }

/-- A reply 200 carrying `timedAgeTierReading`. -/
def timedAgeTierReply : Reply :=
  .response 200 { noBody with electricity := .ok [timedAgeTierReading] }

/-- A gas supply point whose mpxn is the age key of `electricityPoint`. -/
def ageNamedGasPoint : SupplyPoint :=
  { Mpxn := "1900_age", Fuel := "GAS", Start := "2020-01-01", Msn := "G9C" }

/-- A reply 200 carrying one electricity reading without tiers, timestamped one hour before
the clock of `steadyWorld`. -/
def tierlessTimedReply : Reply :=
  .response 200 { noBody with electricity := .ok [{ Tiers := [], Time := "2023-06-15T01:00:00" }] }

/-- A reply 200 carrying one gas reading of volume 2.0 without a timestamp. -/
def untimedVolumeReply : Reply :=
  .response 200 { noBody with gas := .ok [{ Volume := two, Time := "" }] }

/-- A gas reading whose timestamp is malformed. -/
def untimedGasReply : Reply :=
  .response 200 { noBody with gas := .ok [{ Volume := two, Time := "yesterday" }] }

/-- A day and a night tier with a malformed timestamp. -/
def untimedDayNightReply : Reply :=
  .response 200 { noBody with electricity := .ok [{ dayNightReading with Time := "yesterday" }] }

/-- An electricity point with mpxn "19" whose reading has one tier labelled "00_day". -/
def shortPoint : SupplyPoint :=
  { Mpxn := "19", Fuel := "ELECTRICITY", Start := "2020-01-01", Msn := "E1" }

/-- An electricity point with mpxn "19_00" whose reading has one tier labelled "day". -/
def longPoint : SupplyPoint :=
  { Mpxn := "19_00", Fuel := "ELECTRICITY", Start := "2020-01-01", Msn := "E2" }

/-- The readings endpoint answers the first call with a tier "00_day" reading 1.0 and every
later call with a tier "day" reading 2.0. -/
def collidingWorld : World :=
  { login := fun _ => .response 200 noBody,
    points := fun _ => .response 200 { noBody with points := .ok [shortPoint, longPoint] },
    readings := fun k =>
      if k = 0 then
        .response 200 { noBody with
          electricity := .ok [{ Tiers := [{ Reading := one, Label := "00_day" }], Time := "" }] }
      else
        .response 200 { noBody with
          electricity := .ok [{ Tiers := [{ Reading := two, Label := "day" }], Time := "" }] },
    now := fun _ => { sec := 1686794400, nsec := 0 } }

/-- A reply 200 to the supply-points query listing the gas point only. -/
def onePointReply : Reply :=
  .response 200 { noBody with points := .ok [gasPoint] }

/-- A reply with the given status and the body text "no". -/
def refusal (status : Nat) : Reply :=
  .response status { noBody with text := "no" }

/-- The supply-points endpoint refuses the first two calls with status 500 and then lists
the gas point; the readings endpoint serves `gasReadings`. -/
def flakyWorld : World :=
  { login := fun _ => .response 200 noBody,
    points := fun k => if k < 2 then refusal 500 else onePointReply,
    readings := fun _ => gasReply,
    now := fun _ => { sec := 1686794400, nsec := 0 } }

/-- The supply-points endpoint answers the first call with 401 and lists the gas point
afterwards; the readings endpoint serves `gasReadings`. -/
def expiredWorld : World :=
  { login := fun _ => .response 200 noBody,
    points := fun k => if k = 0 then refusal 401 else onePointReply,
    readings := fun _ => gasReply,
    now := fun _ => { sec := 1686794400, nsec := 0 } }

/-! ## Facts about the gauge cache -/

theorem cacheGet_cachePut_same (cache : List (String × Gauge)) (k : String) (g : Gauge) :
    cacheGet (cachePut cache k g) k = some g := by
  induction cache with
  | nil => simp [cachePut, cacheGet]
  | cons e rest ih =>
    obtain ⟨k0, g0⟩ := e
    by_cases h : k0 = k
    · simp [cachePut, cacheGet, h]
    · simp [cachePut, cacheGet, h, ih]

theorem cacheGet_cachePut_other (cache : List (String × Gauge)) (k k2 : String) (g : Gauge)
    (hne : k2 ≠ k) : cacheGet (cachePut cache k g) k2 = cacheGet cache k2 := by
  induction cache with
  | nil =>
    have : ¬ k = k2 := fun h => hne h.symm
    simp [cachePut, cacheGet, this]
  | cons e rest ih =>
    obtain ⟨k0, g0⟩ := e
    by_cases h : k0 = k
    · subst h
      have : ¬ k0 = k2 := fun h => hne h.symm
      simp [cachePut, cacheGet, this]
    · by_cases h2 : k0 = k2
      · subst h2
        simp [cachePut, cacheGet, h]
      · simp [cachePut, cacheGet, h, h2, ih]

theorem cacheKeys_cachePut_present (cache : List (String × Gauge)) (k : String) (g g0 : Gauge)
    (h : cacheGet cache k = some g0) : cacheKeys (cachePut cache k g) = cacheKeys cache := by
  induction cache with
  | nil => simp [cacheGet] at h
  | cons e rest ih =>
    obtain ⟨k0, g1⟩ := e
    by_cases hk : k0 = k
    · simp [cachePut, cacheKeys, hk]
    · simp only [cacheGet, hk, if_false] at h
      have := ih h
      simp only [cacheKeys] at this
      simp [cachePut, cacheKeys, hk, this]

/-- The block "get or create, then Set": what it does to the state. -/
theorem gaugeSet_getOrCreate_value (o : Ovo) (k : String) (opts : GaugeOpts) (v : Float64) :
    gaugeValue (gaugeSet (getOrCreate o k opts).1 k v) k = some v := by
  unfold getOrCreate
  cases h : cacheGet o.GaugeCache k with
  | some g => simp [gaugeSet, gaugeValue, h, cacheGet_cachePut_same]
  | none => simp [gaugeSet, gaugeValue, cacheGet_cachePut_same]

theorem gaugeSet_getOrCreate_other (o : Ovo) (k k2 : String) (opts : GaugeOpts) (v : Float64)
    (hne : k2 ≠ k) :
    cacheGet (gaugeSet (getOrCreate o k opts).1 k v).GaugeCache k2 = cacheGet o.GaugeCache k2 := by
  unfold getOrCreate
  cases h : cacheGet o.GaugeCache k with
  | some g => simp [gaugeSet, h, cacheGet_cachePut_other _ _ _ _ hne]
  | none => simp [gaugeSet, cacheGet_cachePut_same, cacheGet_cachePut_other _ _ _ _ hne]

theorem gaugeSet_getOrCreate_LoggedIn (o : Ovo) (k : String) (opts : GaugeOpts) (v : Float64) :
    (gaugeSet (getOrCreate o k opts).1 k v).LoggedIn = o.LoggedIn := by
  unfold getOrCreate
  cases h : cacheGet o.GaugeCache k with
  | some g => simp [gaugeSet, h]
  | none => simp [gaugeSet, cacheGet_cachePut_same]

theorem gaugeSet_getOrCreate_trace (o : Ovo) (k : String) (opts : GaugeOpts) (v : Float64) :
    (gaugeSet (getOrCreate o k opts).1 k v).trace = o.trace := by
  unfold getOrCreate
  cases h : cacheGet o.GaugeCache k with
  | some g => simp [gaugeSet, h]
  | none => simp [gaugeSet, cacheGet_cachePut_same]

/-! ## Facts about strings and traces -/

theorem append_ne_self (s t : String) (ht : t ≠ "") : s ++ t ≠ s := by
  intro h
  apply ht
  have hd := congrArg String.data h
  simp only [String.data_append, List.append_right_eq_self] at hd
  exact String.ext hd

theorem append_left_cancel (s t u : String) (h : s ++ t = s ++ u) : t = u := by
  have hd := congrArg String.data h
  simp only [String.data_append, List.append_cancel_left_eq] at hd
  exact String.ext hd

theorem mpxn_ne_age (m : String) : m ≠ m ++ "_age" :=
  fun h => append_ne_self m "_age" (by decide) h.symm

theorem tier_ne_age (m l : String) (hl : l ≠ "age") : m ++ "_" ++ l ≠ m ++ "_age" := by
  intro h
  apply hl
  have h2 : m ++ ("_" ++ l) = m ++ ("_" ++ "age") := by
    rw [← String.append_assoc]
    exact h
  exact append_left_cancel "_" l "age" (append_left_cancel m _ _ h2)

theorem tier_ne_tier (m l l2 : String) (hl : l ≠ l2) : m ++ "_" ++ l ≠ m ++ "_" ++ l2 :=
  fun h => hl (append_left_cancel (m ++ "_") l l2 h)

theorem valueSets_append (a b : List Event) : valueSets (a ++ b) = valueSets a ++ valueSets b := by
  induction a with
  | nil => rfl
  | cons e rest ih => cases e <;> simp [valueSets, ih]

theorem ageSets_append (a b : List Event) : ageSets (a ++ b) = ageSets a ++ ageSets b := by
  induction a with
  | nil => rfl
  | cons e rest ih => cases e <;> simp [valueSets, ageSets, ih]

/-! ## Facts about `EmitAge` -/

theorem EmitAge_of_parse_error (now : Instant) (o : Ovo) (point : SupplyPoint) (date cause : String)
    (h : timeParse date = .error cause) :
    EmitAge now o point date = (o, some (.parseReadingTime date cause)) := by
  simp [EmitAge, h]

theorem emitAgeIfTimed_frame (now : Instant) (o : Ovo) (point : SupplyPoint) (time : String) :
    (∀ k2, k2 ≠ point.Mpxn ++ "_age" →
      cacheGet (emitAgeIfTimed now o point time).1.GaugeCache k2 = cacheGet o.GaugeCache k2)
    ∧ valueSets (emitAgeIfTimed now o point time).1.trace = valueSets o.trace
    ∧ (emitAgeIfTimed now o point time).1.LoggedIn = o.LoggedIn := by
  unfold emitAgeIfTimed
  by_cases ht : time = ""
  · simp [ht]
  · simp only [ne_eq, ht, not_false_eq_true, if_true]
    unfold EmitAge
    cases hp : timeParse time with
    | error cause => simp
    | ok readingDate =>
      refine ⟨?_, ?_, ?_⟩
      · intro k2 hk2
        simp [gaugeSet_getOrCreate_other _ _ _ _ _ hk2]
      · simp [gaugeSet_getOrCreate_trace, valueSets_append, valueSets]
      · simp [gaugeSet_getOrCreate_LoggedIn]

theorem setGas_value (o : Ovo) (point : SupplyPoint) (reading : GasReading) :
    gaugeValue (setGas o point reading) point.Mpxn = some reading.Volume := by
  have := gaugeSet_getOrCreate_value o point.Mpxn
    { Name := "ovo_reading_last",
      ConstLabels := [("fuel", point.Fuel), ("tier", "default"), ("mpxn", point.Mpxn),
        ("msn", point.Msn)] } reading.Volume
  simpa [setGas, gaugeValue] using this

theorem gaugeSet_getOrCreate_get (o : Ovo) (k : String) (opts : GaugeOpts) (v : Float64) :
    cacheGet (gaugeSet (getOrCreate o k opts).1 k v).GaugeCache k
      = some { (getOrCreate o k opts).2 with value := v } := by
  unfold getOrCreate
  cases h : cacheGet o.GaugeCache k with
  | some g => simp [gaugeSet, h, cacheGet_cachePut_same]
  | none => simp [gaugeSet, cacheGet_cachePut_same]

theorem getOrCreate_snd (o : Ovo) (k : String) (opts : GaugeOpts) :
    (getOrCreate o k opts).2 = match cacheGet o.GaugeCache k with
      | some g => g
      | none => { id := o.registered.length, opts := opts, value := Float64.bits 0 } := by
  unfold getOrCreate
  cases h : cacheGet o.GaugeCache k <;> simp

theorem ScanPoint_gas_eq (w : World) (o : Ovo) (point : SupplyPoint) (body : Body)
    (reading : GasReading) (rest : List GasReading)
    (hreply : w.readings (scanPointCalls o.trace) = .response 200 body)
    (hfuel : toLower point.Fuel = "gas")
    (hbody : body.gas = .ok (reading :: rest)) :
    ScanPoint w o point = emitAgeIfTimed (w.now (scanPointCalls o.trace))
      (setGas { o with trace := o.trace ++ [Event.scanPoint point] } point reading)
      point reading.Time := by
  simp [ScanPoint, hreply, hfuel, hbody]

theorem gaugeSet_getOrCreate_registered (o : Ovo) (k : String) (opts : GaugeOpts) (v : Float64) :
    (gaugeSet (getOrCreate o k opts).1 k v).registered
      = o.registered ++ (if cacheGet o.GaugeCache k = none then [opts] else []) := by
  unfold getOrCreate
  cases h : cacheGet o.GaugeCache k with
  | some g => simp [gaugeSet, h]
  | none => simp [gaugeSet, cacheGet_cachePut_same]

theorem emitAgeIfTimed_untimed (now : Instant) (o : Ovo) (point : SupplyPoint) (time : String)
    (h : time = "" ∨ ∃ cause, timeParse time = .error cause) :
    (emitAgeIfTimed now o point time).1 = o := by
  unfold emitAgeIfTimed
  by_cases ht : time = ""
  · simp [ht]
  · rcases h with h | ⟨cause, hc⟩
    · exact absurd h ht
    · simp [ht, EmitAge, hc]

theorem emitAgeIfTimed_value (now : Instant) (o : Ovo) (point : SupplyPoint) (time : String)
    (readingDate : Instant) (ht : time ≠ "") (hp : timeParse time = .ok readingDate) :
    gaugeValue (emitAgeIfTimed now o point time).1 (point.Mpxn ++ "_age")
      = some (Float64.seconds (Sub now readingDate)) := by
  have := gaugeSet_getOrCreate_value o (point.Mpxn ++ "_age")
    { Name := "ovo_reading_age_seconds",
      ConstLabels := [("fuel", point.Fuel), ("mpxn", point.Mpxn), ("msn", point.Msn)] }
    (Float64.seconds (Sub now readingDate))
  simpa [emitAgeIfTimed, ht, EmitAge, hp, gaugeValue] using this

/-! ## Facts about the tier loop -/

theorem setTier_value (o : Ovo) (point : SupplyPoint) (tier : ElectricityTierReading) :
    gaugeValue (setTier o point tier) (point.Mpxn ++ "_" ++ tier.Label) = some tier.Reading := by
  have := gaugeSet_getOrCreate_value o (point.Mpxn ++ "_" ++ tier.Label)
    { Name := "ovo_reading_last",
      ConstLabels := [("fuel", point.Fuel), ("tier", tier.Label), ("mpxn", point.Mpxn),
        ("msn", point.Msn)] } tier.Reading
  simpa [setTier, gaugeValue] using this

theorem setTier_other (o : Ovo) (point : SupplyPoint) (tier : ElectricityTierReading) (k2 : String)
    (hne : k2 ≠ point.Mpxn ++ "_" ++ tier.Label) :
    cacheGet (setTier o point tier).GaugeCache k2 = cacheGet o.GaugeCache k2 := by
  simp [setTier, gaugeSet_getOrCreate_other _ _ _ _ _ hne]

theorem setTiers_other (point : SupplyPoint) (tiers : List ElectricityTierReading) (o : Ovo)
    (k2 : String) (hne : ∀ t ∈ tiers, k2 ≠ point.Mpxn ++ "_" ++ t.Label) :
    cacheGet (setTiers point tiers o).GaugeCache k2 = cacheGet o.GaugeCache k2 := by
  induction tiers generalizing o with
  | nil => rfl
  | cons t rest ih =>
    simp only [setTiers]
    rw [ih _ (fun t2 ht2 => hne t2 (List.mem_cons_of_mem _ ht2))]
    exact setTier_other o point t k2 (hne t (List.mem_cons_self _ _))

theorem setTiers_append (point : SupplyPoint) (pre post : List ElectricityTierReading) (o : Ovo) :
    setTiers point (pre ++ post) o = setTiers point post (setTiers point pre o) := by
  induction pre generalizing o with
  | nil => rfl
  | cons t rest ih => simp [setTiers, ih]

theorem setTiers_valueSets (point : SupplyPoint) (tiers : List ElectricityTierReading) (o : Ovo) :
    valueSets (setTiers point tiers o).trace
      = valueSets o.trace ++ tiers.map (fun t => (point.Mpxn ++ "_" ++ t.Label, t.Reading)) := by
  induction tiers generalizing o with
  | nil => simp [setTiers]
  | cons t rest ih =>
    simp only [setTiers]
    rw [ih]
    simp [setTier, gaugeSet_getOrCreate_trace, valueSets_append, valueSets]

theorem setTiers_last_value (point : SupplyPoint) (pre post : List ElectricityTierReading)
    (tier : ElectricityTierReading) (o : Ovo) (hpost : ∀ t ∈ post, t.Label ≠ tier.Label) :
    gaugeValue (setTiers point (pre ++ tier :: post) o) (point.Mpxn ++ "_" ++ tier.Label)
      = some tier.Reading := by
  rw [setTiers_append]
  simp only [setTiers]
  unfold gaugeValue
  rw [setTiers_other point post _ _
    (fun t ht => tier_ne_tier point.Mpxn tier.Label t.Label (fun h => hpost t ht h.symm))]
  exact setTier_value _ point tier

theorem ScanPoint_electricity_eq (w : World) (o : Ovo) (point : SupplyPoint) (body : Body)
    (reading : ElectricityReading) (rest : List ElectricityReading)
    (hreply : w.readings (scanPointCalls o.trace) = .response 200 body)
    (hfuel : toLower point.Fuel ≠ "gas")
    (hbody : body.electricity = .ok (reading :: rest)) :
    ScanPoint w o point = emitAgeIfTimed (w.now (scanPointCalls o.trace))
      (setTiers point reading.Tiers { o with trace := o.trace ++ [Event.scanPoint point] })
      point reading.Time := by
  simp [ScanPoint, hreply, hfuel, hbody]

theorem setTiers_ageSets (point : SupplyPoint) (tiers : List ElectricityTierReading) (o : Ovo) :
    ageSets (setTiers point tiers o).trace = ageSets o.trace := by
  induction tiers generalizing o with
  | nil => rfl
  | cons t rest ih =>
    simp only [setTiers]
    rw [ih]
    simp [setTier, gaugeSet_getOrCreate_trace, ageSets_append, ageSets]

theorem setTiers_registered (point : SupplyPoint) (tiers : List ElectricityTierReading) (o : Ovo) :
    ∃ new, (setTiers point tiers o).registered = o.registered ++ new
      ∧ ∀ g ∈ new, g.Name = "ovo_reading_last" := by
  induction tiers generalizing o with
  | nil => exact ⟨[], by simp [setTiers], by simp⟩
  | cons t rest ih =>
    obtain ⟨new, hnew, hall⟩ := ih (setTier o point t)
    simp only [setTiers]
    refine ⟨(if cacheGet o.GaugeCache (point.Mpxn ++ "_" ++ t.Label) = none then
      [{ Name := "ovo_reading_last",
         ConstLabels := [("fuel", point.Fuel), ("tier", t.Label), ("mpxn", point.Mpxn),
           ("msn", point.Msn)] }] else []) ++ new, ?_, ?_⟩
    · rw [hnew]
      simp [setTier, gaugeSet_getOrCreate_registered]
    · intro g hg
      rcases List.mem_append.mp hg with h | h
      · split at h
        · simp only [List.mem_singleton] at h
          rw [h]
        · simp at h
      · exact hall g h

theorem scanPointCalls_snoc (trace : List Event) (point : SupplyPoint) :
    scanPointCalls (trace ++ [Event.scanPoint point]) = scanPointCalls trace + 1 := by
  simp [scanPointCalls, List.countP_append, isScanPoint]

/-! ## Gauge identity is kept by every operation -/

theorem gaugeSet_getOrCreate_keeps (o : Ovo) (k0 : String) (opts : GaugeOpts) (v : Float64)
    (k : String) (g : Gauge) (h : cacheGet o.GaugeCache k = some g) :
    ∃ g2, cacheGet (gaugeSet (getOrCreate o k0 opts).1 k0 v).GaugeCache k = some g2
      ∧ g2.id = g.id ∧ g2.opts = g.opts := by
  by_cases hk : k = k0
  · subst hk
    rw [gaugeSet_getOrCreate_get, getOrCreate_snd, h]
    exact ⟨_, rfl, rfl, rfl⟩
  · rw [gaugeSet_getOrCreate_other _ _ _ _ _ hk]
    exact ⟨g, h, rfl, rfl⟩

theorem split_at_underscore (m1 m2 r1 r2 : List Char) (h1 : '_' ∉ m1) (h2 : '_' ∉ m2)
    (h : m1 ++ '_' :: r1 = m2 ++ '_' :: r2) : m1 = m2 ∧ r1 = r2 := by
  induction m1 generalizing m2 with
  | nil =>
    cases m2 with
    | nil => simpa using h
    | cons c rest =>
      simp only [List.nil_append, List.cons_append, List.cons.injEq] at h
      exact absurd (h.1 ▸ List.mem_cons_self _ _) h2
  | cons c rest ih =>
    cases m2 with
    | nil =>
      simp only [List.nil_append, List.cons_append, List.cons.injEq] at h
      exact absurd (h.1 ▸ List.mem_cons_self _ _) h1
    | cons c2 rest2 =>
      simp only [List.cons_append, List.cons.injEq] at h
      have := ih rest2 (fun hm => h1 (List.mem_cons_of_mem _ hm))
        (fun hm => h2 (List.mem_cons_of_mem _ hm)) h.2
      exact ⟨by rw [h.1, this.1], this.2⟩

theorem tierKey_data (m l : String) : (m ++ "_" ++ l).data = m.data ++ '_' :: l.data := by
  simp [String.data_append]

theorem ageKey_data (m : String) : (m ++ "_age").data = m.data ++ '_' :: "age".data := by
  simp [String.data_append]

/-! ## Facts about the retry loop -/

theorem Login_of_ok (w : World) (o : Ovo)
    (h : loginResult (w.login (loginCalls o.trace)) = none) :
    Login w o = ({ o with trace := o.trace ++ [Event.login], LoggedIn := true }, none) := by
  unfold Login
  cases hr : w.login (loginCalls o.trace) with
  | failure cause => simp [hr, loginResult] at h
  | response status body =>
    by_cases hs : status = 200
    · simp [hs]
    · simp [hr, loginResult, hs] at h

theorem LoadPoints_result (w : World) (o : Ovo) :
    (LoadPoints w o).2 = loadPointsResult (w.points (loadPointsCalls o.trace)) := by
  unfold LoadPoints loadPointsResult
  cases hr : w.points (loadPointsCalls o.trace) with
  | failure cause => rfl
  | response status body =>
    by_cases hs : status = 200
    · cases hb : body.points <;> simp [hs, hb]
    · simp [hs]

theorem LoadPoints_trace (w : World) (o : Ovo) :
    (LoadPoints w o).1.trace = o.trace ++ [Event.loadPoints] := by
  unfold LoadPoints
  cases hr : w.points (loadPointsCalls o.trace) with
  | failure cause => rfl
  | response status body =>
    by_cases hs : status = 200
    · cases hb : body.points <;> simp [hs, hb]
    · by_cases h4 : status = 401 ∨ status = 403 <;> simp [hs, h4]

theorem setTiers_count (e : Event) (he : e = Event.login ∨ e = Event.loadPoints)
    (point : SupplyPoint) (tiers : List ElectricityTierReading) (o : Ovo) :
    (setTiers point tiers o).trace.count e = o.trace.count e := by
  induction tiers generalizing o with
  | nil => rfl
  | cons t rest ih =>
    simp only [setTiers]
    rw [ih]
    rcases he with he | he <;> simp [he, setTier, gaugeSet_getOrCreate_trace]

theorem emitAgeIfTimed_count (e : Event) (he : e = Event.login ∨ e = Event.loadPoints)
    (now : Instant) (o : Ovo) (point : SupplyPoint) (time : String) :
    (emitAgeIfTimed now o point time).1.trace.count e = o.trace.count e := by
  unfold emitAgeIfTimed
  by_cases ht : time = ""
  · simp [ht]
  · simp only [ne_eq, ht, not_false_eq_true, if_true]
    unfold EmitAge
    cases hp : timeParse time with
    | error cause => simp
    | ok readingDate =>
      rcases he with he | he <;> simp [he, gaugeSet_getOrCreate_trace]

theorem ScanPoint_count (e : Event) (he : e = Event.login ∨ e = Event.loadPoints)
    (w : World) (o : Ovo) (point : SupplyPoint) :
    (ScanPoint w o point).1.trace.count e = o.trace.count e := by
  have hsnoc : (o.trace ++ [Event.scanPoint point]).count e = o.trace.count e := by
    rcases he with he | he <;> simp [he]
  cases hr : w.readings (scanPointCalls o.trace) with
  | failure cause => simpa [ScanPoint, hr] using hsnoc
  | response status body =>
    by_cases hs : status = 200
    · subst hs
      by_cases hf : toLower point.Fuel = "gas"
      · cases hb : body.gas with
        | error cause => simpa [ScanPoint, hr, hf, hb] using hsnoc
        | ok readings =>
          cases readings with
          | nil => simpa [ScanPoint, hr, hf, hb] using hsnoc
          | cons reading rest =>
            rw [ScanPoint_gas_eq w o point body reading rest hr hf hb, emitAgeIfTimed_count e he]
            rcases he with he | he <;> simp [he, setGas, gaugeSet_getOrCreate_trace]
      · cases hb : body.electricity with
        | error cause => simpa [ScanPoint, hr, hf, hb] using hsnoc
        | ok readings =>
          cases readings with
          | nil => simpa [ScanPoint, hr, hf, hb] using hsnoc
          | cons reading rest =>
            rw [ScanPoint_electricity_eq w o point body reading rest hr hf hb,
              emitAgeIfTimed_count e he, setTiers_count e he]
            exact hsnoc
    · by_cases h4 : status = 401 ∨ status = 403
      · simpa [ScanPoint, hr, hs, h4] using hsnoc
      · simpa [ScanPoint, hr, hs, h4] using hsnoc

theorem scanPoints_count (e : Event) (he : e = Event.login ∨ e = Event.loadPoints)
    (w : World) (points : List SupplyPoint) (o : Ovo) (lastErr : Option Error) :
    (scanPoints w points o lastErr).1.trace.count e = o.trace.count e := by
  induction points generalizing o lastErr with
  | nil => rfl
  | cons p rest ih =>
    unfold scanPoints
    rcases hsp : ScanPoint w o p with ⟨o1, r⟩
    have h1 : o1.trace.count e = o.trace.count e := by
      have := ScanPoint_count e he w o p
      rwa [hsp] at this
    cases r with
    | none => simp only [ih, h1]
    | some err => simp only [ih, h1]

theorem count_sleep_login (tr : List Event) :
    loginCalls (tr ++ [Event.sleep]) = loginCalls tr
    ∧ loadPointsCalls (tr ++ [Event.sleep]) = loadPointsCalls tr := by
  simp [loginCalls, loadPointsCalls]

theorem count_login_snoc (tr : List Event) :
    loginCalls (tr ++ [Event.login]) = loginCalls tr + 1
    ∧ loadPointsCalls (tr ++ [Event.login]) = loadPointsCalls tr := by
  simp [loginCalls, loadPointsCalls]

theorem count_loadPoints_snoc (tr : List Event) :
    loginCalls (tr ++ [Event.loadPoints]) = loginCalls tr
    ∧ loadPointsCalls (tr ++ [Event.loadPoints]) = loadPointsCalls tr + 1 := by
  simp [loginCalls, loadPointsCalls]

/-- The part of an iteration after the optional sleep, when the points fetch fails. -/
theorem afterSleep_points_failed (w : World) (n : Nat) (o1 : Ovo) (lastErr : Option Error) (e : Error)
    (hl : loginResult (w.login (loginCalls o1.trace)) = none)
    (hp : loadPointsResult (w.points (loadPointsCalls o1.trace)) = .error e) :
    ∃ o3, (match (if o1.LoggedIn then (o1, none) else Login w o1) with
        | (o2, some err) => (o2, some (Error.failedToLogin err))
        | (o2, none) =>
          match LoadPoints w o2 with
          | (o3, .error err) => scanLoop w n o3 (some (.failedToLoadPoints err))
          | (o3, .ok points) => ((scanPoints w points o3 lastErr).1, none))
        = scanLoop w n o3 (some (.failedToLoadPoints e))
      ∧ loadPointsCalls o3.trace = loadPointsCalls o1.trace + 1
      ∧ loginCalls o3.trace ≤ loginCalls o1.trace + 1 := by
  cases hLI : o1.LoggedIn with
  | true =>
    rcases hLP : LoadPoints w o1 with ⟨o3, r⟩
    have hr : r = .error e := by
      have := LoadPoints_result w o1
      rw [hLP] at this
      exact this.trans hp
    have ht : o3.trace = o1.trace ++ [Event.loadPoints] := by
      have := LoadPoints_trace w o1
      rwa [hLP] at this
    subst hr
    refine ⟨o3, by simp [hLP], ?_, ?_⟩
    · rw [ht, (count_loadPoints_snoc _).2]
    · rw [ht, (count_loadPoints_snoc _).1]
      exact Nat.le_succ _
  | false =>
    rcases hLP : LoadPoints w { o1 with trace := o1.trace ++ [Event.login], LoggedIn := true }
      with ⟨o3, r⟩
    have hr : r = .error e := by
      have := LoadPoints_result w { o1 with trace := o1.trace ++ [Event.login], LoggedIn := true }
      rw [hLP] at this
      simp only [(count_login_snoc _).2] at this
      exact this.trans hp
    have ht : o3.trace = o1.trace ++ [Event.login] ++ [Event.loadPoints] := by
      have := LoadPoints_trace w { o1 with trace := o1.trace ++ [Event.login], LoggedIn := true }
      rwa [hLP] at this
    subst hr
    refine ⟨o3, by simp [Login_of_ok w o1 hl, hLP], ?_, ?_⟩
    · rw [ht, (count_loadPoints_snoc _).2, (count_login_snoc _).2]
    · rw [ht, (count_loadPoints_snoc _).1, (count_login_snoc _).1]

/-- One iteration of the retry loop in which the points fetch fails: the loop goes on with
the failure as `lastErr`, having made one more `LoadPoints` call and at most one `Login`. -/
theorem scanLoop_points_failed (w : World) (n : Nat) (o : Ovo) (lastErr : Option Error) (e : Error)
    (hl : loginResult (w.login (loginCalls o.trace)) = none)
    (hp : loadPointsResult (w.points (loadPointsCalls o.trace)) = .error e) :
    ∃ o3, scanLoop w (n + 1) o lastErr = scanLoop w n o3 (some (.failedToLoadPoints e))
      ∧ loadPointsCalls o3.trace = loadPointsCalls o.trace + 1
      ∧ loginCalls o3.trace ≤ loginCalls o.trace + 1 := by
  cases lastErr with
  | none => exact afterSleep_points_failed w n o none e hl hp
  | some err =>
    obtain ⟨o3, h1, h2, h3⟩ := afterSleep_points_failed w n
      { o with trace := o.trace ++ [Event.sleep] } (some err) e
      (by simpa only [(count_sleep_login _).1] using hl)
      (by simpa only [(count_sleep_login _).2] using hp)
    refine ⟨o3, h1, ?_, ?_⟩
    · rw [h2, (count_sleep_login _).2]
    · rw [(count_sleep_login _).1] at h3
      exact h3

/-- The part of an iteration after the optional sleep, when the points fetch succeeds. -/
theorem afterSleep_points_loaded (w : World) (n : Nat) (o1 : Ovo) (lastErr : Option Error)
    (points : List SupplyPoint)
    (hl : loginResult (w.login (loginCalls o1.trace)) = none)
    (hp : loadPointsResult (w.points (loadPointsCalls o1.trace)) = .ok points) :
    ∃ o4, (match (if o1.LoggedIn then (o1, none) else Login w o1) with
        | (o2, some err) => (o2, some (Error.failedToLogin err))
        | (o2, none) =>
          match LoadPoints w o2 with
          | (o3, .error err) => scanLoop w n o3 (some (.failedToLoadPoints err))
          | (o3, .ok points) => ((scanPoints w points o3 lastErr).1, none))
        = (o4, none)
      ∧ loadPointsCalls o4.trace = loadPointsCalls o1.trace + 1 := by
  cases hLI : o1.LoggedIn with
  | true =>
    rcases hLP : LoadPoints w o1 with ⟨o3, r⟩
    have hr : r = .ok points := by
      have := LoadPoints_result w o1
      rw [hLP] at this
      exact this.trans hp
    have ht : o3.trace = o1.trace ++ [Event.loadPoints] := by
      have := LoadPoints_trace w o1
      rwa [hLP] at this
    subst hr
    refine ⟨(scanPoints w points o3 lastErr).1, by simp [hLP], ?_⟩
    unfold loadPointsCalls
    rw [scanPoints_count _ (Or.inr rfl), ht]
    exact (count_loadPoints_snoc _).2
  | false =>
    rcases hLP : LoadPoints w { o1 with trace := o1.trace ++ [Event.login], LoggedIn := true }
      with ⟨o3, r⟩
    have hr : r = .ok points := by
      have := LoadPoints_result w { o1 with trace := o1.trace ++ [Event.login], LoggedIn := true }
      rw [hLP] at this
      simp only [(count_login_snoc _).2] at this
      exact this.trans hp
    have ht : o3.trace = o1.trace ++ [Event.login] ++ [Event.loadPoints] := by
      have := LoadPoints_trace w { o1 with trace := o1.trace ++ [Event.login], LoggedIn := true }
      rwa [hLP] at this
    subst hr
    refine ⟨(scanPoints w points o3 lastErr).1, by simp [Login_of_ok w o1 hl, hLP], ?_⟩
    unfold loadPointsCalls
    rw [scanPoints_count _ (Or.inr rfl), ht]
    exact ((count_loadPoints_snoc _).2).trans (by rw [(count_login_snoc _).2]; rfl)

/-- One iteration of the retry loop in which the points fetch succeeds: the loop ends with
nil, whatever the point scans did, having made one more `LoadPoints` call. -/
theorem scanLoop_points_loaded (w : World) (n : Nat) (o : Ovo) (lastErr : Option Error)
    (points : List SupplyPoint)
    (hl : loginResult (w.login (loginCalls o.trace)) = none)
    (hp : loadPointsResult (w.points (loadPointsCalls o.trace)) = .ok points) :
    ∃ o4, scanLoop w (n + 1) o lastErr = (o4, none)
      ∧ loadPointsCalls o4.trace = loadPointsCalls o.trace + 1 := by
  cases lastErr with
  | none => exact afterSleep_points_loaded w n o none points hl hp
  | some err =>
    obtain ⟨o4, h1, h2⟩ := afterSleep_points_loaded w n
      { o with trace := o.trace ++ [Event.sleep] } (some err) points
      (by simpa only [(count_sleep_login _).1] using hl)
      (by simpa only [(count_sleep_login _).2] using hp)
    refine ⟨o4, h1, ?_⟩
    rw [h2, (count_sleep_login _).2]

/-! ## Facts about `time.Parse` -/

theorem digitChar_isDigit (k : Nat) (hk : k < 10) : (digitChar k).isDigit = true := by
  interval_cases k <;> decide

theorem digitVal_digitChar (k : Nat) (hk : k < 10) : digitVal (digitChar k) = k := by
  interval_cases k <;> decide

theorem getnum_twoDigits (n : Nat) (hn : n < 100) (rest : List Char) :
    getnum (twoDigits n ++ rest) true = some (n, rest) := by
  have h1 : n / 10 < 10 := by omega
  have h2 : n % 10 < 10 := by omega
  simp only [twoDigits, List.cons_append, List.nil_append, getnum, digitChar_isDigit _ h1,
    digitChar_isDigit _ h2, digitVal_digitChar _ h1, digitVal_digitChar _ h2]
  simp
  omega

theorem getYear_fourDigits (n : Nat) (hn : n < 10000) (rest : List Char) :
    getYear (fourDigits n ++ rest) = some (n, rest) := by
  have h1 : n / 1000 < 10 := by omega
  have h2 : n / 100 % 10 < 10 := by omega
  have h3 : n / 10 % 10 < 10 := by omega
  have h4 : n % 10 < 10 := by omega
  simp only [fourDigits, List.cons_append, List.nil_append, getYear, digitChar_isDigit _ h1,
    digitChar_isDigit _ h2, digitChar_isDigit _ h3, digitChar_isDigit _ h4, atoiDigits,
    List.foldl, digitVal_digitChar _ h1, digitVal_digitChar _ h2, digitVal_digitChar _ h3,
    digitVal_digitChar _ h4]
  simp
  omega

theorem skip_literal (c : Char) (rest : List Char) : skip (c :: rest) [c] = some rest := by
  simp [skip]

theorem getFraction_nil : getFraction [] = (0, []) := rfl

/-- What `time.Parse` with the layout of line 225 does on every well-formed timestamp: it
accepts the hours 00 to 12 and rejects the hours 13 to 23. -/
theorem timeParse_stamp (year month day hour min sec : Nat)
    (hy : year < 10000) (hm1 : 1 ≤ month) (hm2 : month ≤ 12)
    (hd1 : 1 ≤ day) (hd2 : day ≤ daysIn month year)
    (hh : hour < 24) (hmin : min < 60) (hs : sec < 60) :
    timeParse (stamp year month day hour min sec)
      = if hour ≤ 12 then .ok (Date year month day hour min sec 0)
        else .error "hour out of range" := by
  have hday : day < 100 := by
    have : daysIn month year ≤ 31 := by
      unfold daysIn
      split
      · decide
      · interval_cases month <;> decide
    omega
  have hshape : (stamp year month day hour min sec).data
      = fourDigits year ++ ('-' :: (twoDigits month ++ ('-' :: (twoDigits day ++ ('T' ::
          (twoDigits hour ++ (':' :: (twoDigits min ++ (':' :: (twoDigits sec ++ [])))))))))) := by
    simp [stamp]
  have hmonth : ¬ (month = 0 ∨ 12 < month) := by omega
  have hnm : ¬ 60 ≤ min := by omega
  have hns : ¬ 60 ≤ sec := by omega
  have hnd : ¬ (day < 1 ∨ daysIn month year < day) := by omega
  unfold timeParse
  rw [hshape]
  simp only [getYear_fourDigits year hy, skip_literal, getnum_twoDigits month (by omega),
    getnum_twoDigits day hday, getnum_twoDigits hour (by omega), hmonth, if_false]
  by_cases h12 : hour ≤ 12
  · have hnot : ¬ 12 < hour := by omega
    simp only [hnot, if_false, skip_literal, getnum_twoDigits min (by omega), hnm,
      getnum_twoDigits sec (by omega), hns, getFraction_nil, h12, if_true, ne_eq,
      not_true_eq_false, hnd]
  · have hnot : 12 < hour := by omega
    simp only [hnot, if_true, h12, if_false]

/-- What `EmitAge` does on every well-formed timestamp: with an hour from 00 to 12 it
returns nil and leaves the age gauge at the seconds elapsed since that instant; with an
hour from 13 to 23 it returns a parse error and touches nothing. -/
theorem EmitAge_stamp (now : Instant) (o : Ovo) (point : SupplyPoint)
    (year month day hour min sec : Nat)
    (hy : year < 10000) (hm1 : 1 ≤ month) (hm2 : month ≤ 12)
    (hd1 : 1 ≤ day) (hd2 : day ≤ daysIn month year)
    (hh : hour < 24) (hmin : min < 60) (hs : sec < 60) :
    (hour ≤ 12 →
      (EmitAge now o point (stamp year month day hour min sec)).2 = none
      ∧ gaugeValue (EmitAge now o point (stamp year month day hour min sec)).1
          (point.Mpxn ++ "_age")
        = some (Float64.seconds (Sub now (Date year month day hour min sec 0))))
    ∧ (12 < hour →
      EmitAge now o point (stamp year month day hour min sec)
        = (o, some (.parseReadingTime (stamp year month day hour min sec) "hour out of range"))) := by
  have hparse := timeParse_stamp year month day hour min sec hy hm1 hm2 hd1 hd2 hh hmin hs
  refine ⟨?_, ?_⟩
  · intro h12
    rw [if_pos h12] at hparse
    unfold EmitAge
    rw [hparse]
    refine ⟨rfl, ?_⟩
    have := gaugeSet_getOrCreate_value o (point.Mpxn ++ "_age")
      { Name := "ovo_reading_age_seconds",
        ConstLabels := [("fuel", point.Fuel), ("mpxn", point.Mpxn), ("msn", point.Msn)] }
      (Float64.seconds (Sub now (Date year month day hour min sec 0)))
    simpa [gaugeValue] using this
  · intro h12
    rw [if_neg (by omega)] at hparse
    exact EmitAge_of_parse_error now o point _ _ hparse

/-! ## The registry never sees a duplicate -/

theorem publish_sound (o : Ovo) (opts : GaugeOpts) (v : Float64) (h : RegistrySound o) :
    RegistrySound (gaugeSet (getOrCreate o (keyOf opts) opts).1 (keyOf opts) v) := by
  obtain ⟨hnodup, hheld⟩ := h
  have hkeep : ∀ k g, cacheGet o.GaugeCache k = some g →
      ∃ g2, cacheGet (gaugeSet (getOrCreate o (keyOf opts) opts).1 (keyOf opts) v).GaugeCache k
        = some g2 := by
    intro k g hk
    obtain ⟨g2, hg2, -⟩ := gaugeSet_getOrCreate_keeps o (keyOf opts) opts v k g hk
    exact ⟨g2, hg2⟩
  refine ⟨?_, ?_⟩
  · rw [gaugeSet_getOrCreate_registered]
    cases hc : cacheGet o.GaugeCache (keyOf opts) with
    | some g => simpa using hnodup
    | none =>
      simp only [if_true]
      refine List.Nodup.append hnodup (List.nodup_singleton _) ?_
      intro x hx hx2
      rw [List.mem_singleton] at hx2
      subst hx2
      obtain ⟨g, hg⟩ := hheld x hx
      rw [hc] at hg
      exact absurd hg (by simp)
  · intro x hx
    rw [gaugeSet_getOrCreate_registered] at hx
    rcases List.mem_append.mp hx with hx | hx
    · obtain ⟨g, hg⟩ := hheld x hx
      exact hkeep _ g hg
    · split at hx
      · rw [List.mem_singleton] at hx
        subst hx
        exact ⟨_, gaugeSet_getOrCreate_get o (keyOf x) x v⟩
      · simp at hx

theorem RegistrySound_of_eq (o o2 : Ovo) (hc : o2.GaugeCache = o.GaugeCache)
    (hr : o2.registered = o.registered) (h : RegistrySound o) : RegistrySound o2 := by
  unfold RegistrySound
  rw [hc, hr]
  exact h

theorem setGas_sound (o : Ovo) (point : SupplyPoint) (reading : GasReading)
    (hfuel : toLower point.Fuel = "gas") (h : RegistrySound o) :
    RegistrySound (setGas o point reading) := by
  have hkey : keyOf ⟨"ovo_reading_last", [("fuel", point.Fuel), ("tier", "default"),
      ("mpxn", point.Mpxn), ("msn", point.Msn)]⟩ = point.Mpxn := by
    simp [keyOf, labelOf, List.lookup, hfuel]
  have := publish_sound o ⟨"ovo_reading_last", [("fuel", point.Fuel), ("tier", "default"),
      ("mpxn", point.Mpxn), ("msn", point.Msn)]⟩ reading.Volume h
  rw [hkey] at this
  exact RegistrySound_of_eq _ _ rfl rfl this

theorem setTier_sound (o : Ovo) (point : SupplyPoint) (tier : ElectricityTierReading)
    (hfuel : toLower point.Fuel ≠ "gas") (h : RegistrySound o) :
    RegistrySound (setTier o point tier) := by
  have hkey : keyOf ⟨"ovo_reading_last", [("fuel", point.Fuel), ("tier", tier.Label),
      ("mpxn", point.Mpxn), ("msn", point.Msn)]⟩ = point.Mpxn ++ "_" ++ tier.Label := by
    simp [keyOf, labelOf, List.lookup, hfuel]
  have := publish_sound o ⟨"ovo_reading_last", [("fuel", point.Fuel), ("tier", tier.Label),
      ("mpxn", point.Mpxn), ("msn", point.Msn)]⟩ tier.Reading h
  rw [hkey] at this
  exact RegistrySound_of_eq _ _ rfl rfl this

theorem setTiers_sound (point : SupplyPoint) (tiers : List ElectricityTierReading) (o : Ovo)
    (hfuel : toLower point.Fuel ≠ "gas") (h : RegistrySound o) :
    RegistrySound (setTiers point tiers o) := by
  induction tiers generalizing o with
  | nil => exact h
  | cons t rest ih => exact ih _ (setTier_sound o point t hfuel h)

theorem emitAgeIfTimed_sound (now : Instant) (o : Ovo) (point : SupplyPoint) (time : String)
    (h : RegistrySound o) : RegistrySound (emitAgeIfTimed now o point time).1 := by
  unfold emitAgeIfTimed
  by_cases ht : time = ""
  · simpa [ht] using h
  · simp only [ne_eq, ht, not_false_eq_true, if_true]
    unfold EmitAge
    cases hp : timeParse time with
    | error cause => simpa using h
    | ok readingDate =>
      have hkey : keyOf ⟨"ovo_reading_age_seconds", [("fuel", point.Fuel),
          ("mpxn", point.Mpxn), ("msn", point.Msn)]⟩ = point.Mpxn ++ "_age" := by
        simp [keyOf, labelOf, List.lookup]
      have := publish_sound o ⟨"ovo_reading_age_seconds", [("fuel", point.Fuel),
          ("mpxn", point.Mpxn), ("msn", point.Msn)]⟩ (Float64.seconds (Sub now readingDate)) h
      rw [hkey] at this
      exact RegistrySound_of_eq _ _ rfl rfl this

theorem ScanPoint_sound (w : World) (o : Ovo) (point : SupplyPoint) (h : RegistrySound o) :
    RegistrySound (ScanPoint w o point).1 := by
  have h1 : RegistrySound { o with trace := o.trace ++ [Event.scanPoint point] } :=
    RegistrySound_of_eq o _ rfl rfl h
  cases hr : w.readings (scanPointCalls o.trace) with
  | failure cause => simpa [ScanPoint, hr] using h1
  | response status body =>
    by_cases hs : status = 200
    · subst hs
      by_cases hf : toLower point.Fuel = "gas"
      · cases hb : body.gas with
        | error cause => simpa [ScanPoint, hr, hf, hb] using h1
        | ok readings =>
          cases readings with
          | nil => simpa [ScanPoint, hr, hf, hb] using h1
          | cons reading rest =>
            rw [ScanPoint_gas_eq w o point body reading rest hr hf hb]
            exact emitAgeIfTimed_sound _ _ _ _ (setGas_sound _ point reading hf h1)
      · cases hb : body.electricity with
        | error cause => simpa [ScanPoint, hr, hf, hb] using h1
        | ok readings =>
          cases readings with
          | nil => simpa [ScanPoint, hr, hf, hb] using h1
          | cons reading rest =>
            rw [ScanPoint_electricity_eq w o point body reading rest hr hf hb]
            exact emitAgeIfTimed_sound _ _ _ _ (setTiers_sound point reading.Tiers _ hf h1)
    · have h2 : RegistrySound (ScanPoint w o point).1 := by
        by_cases h4 : status = 401 ∨ status = 403
        · exact RegistrySound_of_eq o _ (by simp [ScanPoint, hr, hs, h4])
            (by simp [ScanPoint, hr, hs, h4]) h
        · exact RegistrySound_of_eq o _ (by simp [ScanPoint, hr, hs, h4])
            (by simp [ScanPoint, hr, hs, h4]) h
      exact h2

theorem scanPoints_sound (w : World) (points : List SupplyPoint) (o : Ovo)
    (lastErr : Option Error) (h : RegistrySound o) :
    RegistrySound (scanPoints w points o lastErr).1 := by
  induction points generalizing o lastErr with
  | nil => exact h
  | cons p rest ih =>
    unfold scanPoints
    rcases hsp : ScanPoint w o p with ⟨o1, r⟩
    have h1 : RegistrySound o1 := by
      have := ScanPoint_sound w o p h
      rwa [hsp] at this
    cases r with
    | none => exact ih o1 lastErr h1
    | some err => exact ih o1 _ h1

theorem Login_sound (w : World) (o : Ovo) (h : RegistrySound o) :
    RegistrySound (Login w o).1 := by
  unfold Login
  cases hr : w.login (loginCalls o.trace) with
  | failure cause => exact RegistrySound_of_eq o _ rfl rfl h
  | response status body =>
    by_cases hs : status = 200
    · exact RegistrySound_of_eq o _ (by simp [hs]) (by simp [hs]) h
    · exact RegistrySound_of_eq o _ (by simp [hs]) (by simp [hs]) h

theorem LoadPoints_sound (w : World) (o : Ovo) (h : RegistrySound o) :
    RegistrySound (LoadPoints w o).1 := by
  unfold LoadPoints
  cases hr : w.points (loadPointsCalls o.trace) with
  | failure cause => exact RegistrySound_of_eq o _ rfl rfl h
  | response status body =>
    by_cases hs : status = 200
    · cases hb : body.points <;>
        exact RegistrySound_of_eq o _ (by simp [hs, hb]) (by simp [hs, hb]) h
    · by_cases h4 : status = 401 ∨ status = 403 <;>
        exact RegistrySound_of_eq o _ (by simp [hs, h4]) (by simp [hs, h4]) h

theorem scanLoop_sound (w : World) (n : Nat) (o : Ovo) (lastErr : Option Error)
    (h : RegistrySound o) : RegistrySound (scanLoop w n o lastErr).1 := by
  induction n generalizing o lastErr with
  | zero => exact h
  | succ n ih =>
    unfold scanLoop
    have h1 : RegistrySound
        (if lastErr.isSome then { o with trace := o.trace ++ [Event.sleep] } else o) := by
      split
      · exact RegistrySound_of_eq o _ rfl rfl h
      · exact h
    generalize (if lastErr.isSome then ({ o with trace := o.trace ++ [Event.sleep] } : Ovo) else o)
      = o1 at h1
    simp only
    have h2 : RegistrySound (if o1.LoggedIn then (o1, (none : Option Error)) else Login w o1).1 := by
      split
      · exact h1
      · exact Login_sound w o1 h1
    rcases hlg : (if o1.LoggedIn then (o1, (none : Option Error)) else Login w o1) with ⟨o2, r⟩
    rw [hlg] at h2
    cases r with
    | some err => exact h2
    | none =>
      have h3 := LoadPoints_sound w o2 h2
      rcases hlp : LoadPoints w o2 with ⟨o3, r3⟩
      rw [hlp] at h3
      dsimp only
      rw [hlp]
      cases r3 with
      | error err => exact ih o3 _ h3
      | ok points => exact scanPoints_sound w points o3 lastErr h3

/-- The registry stays sound across `Scan`: starting from a sound state (the empty one at
start-up is), `promauto.NewGauge` is never asked to register a gauge whose name and
constant labels are already registered, so it never panics. -/
theorem Scan_sound (w : World) (o : Ovo) (h : RegistrySound o) : RegistrySound (Scan w o).1 :=
  scanLoop_sound w 3 _ none (RegistrySound_of_eq o _ rfl rfl h)

theorem freshOvo_sound : RegistrySound freshOvo :=
  ⟨List.nodup_nil, fun _ hx => absurd hx (List.not_mem_nil _)⟩

/-! ## The claims -/

/-- C4, amended. For a supply point whose fuel is gas (in any letter case) and a reply 200
whose body decodes to a non-empty gas reading list, `ScanPoint` makes exactly one `Set` on a
value gauge: the gauge cached under the point's mpxn (no tier in the key) gets the volume
of the reading at index 0 and holds it after the call. That gauge is the one already
cached under the mpxn, with its name and labels as they were, or else a new one named
ovo_reading_last with tier label default; so it is named ovo_reading_last whenever the key
was free or held a gauge of that name. No other cache entry changes, the age entry apart,
and the readings at index 1 and later have no effect at all: any reply with the same first
reading gives the same result. -/
theorem ScanPoint_gas_sets_first_volume (w : World) (o : Ovo) (point : SupplyPoint) (body : Body)
    (reading : GasReading) (rest : List GasReading)
    (hreply : w.readings (scanPointCalls o.trace) = .response 200 body)
    (hfuel : toLower point.Fuel = "gas")
    (hbody : body.gas = .ok (reading :: rest)) :
    valueSets (ScanPoint w o point).1.trace = valueSets o.trace ++ [(point.Mpxn, reading.Volume)]
    ∧ gaugeValue (ScanPoint w o point).1 point.Mpxn = some reading.Volume
    ∧ (∃ g, cacheGet (ScanPoint w o point).1.GaugeCache point.Mpxn = some g ∧
        match cacheGet o.GaugeCache point.Mpxn with
        | some g0 => g.id = g0.id ∧ g.opts = g0.opts
        | none => g.id = o.registered.length ∧ g.opts =
            { Name := "ovo_reading_last",
              ConstLabels := [("fuel", point.Fuel), ("tier", "default"), ("mpxn", point.Mpxn),
                ("msn", point.Msn)] })
    ∧ ((∀ g0, cacheGet o.GaugeCache point.Mpxn = some g0 → g0.opts.Name = "ovo_reading_last") →
        ∃ g, cacheGet (ScanPoint w o point).1.GaugeCache point.Mpxn = some g
          ∧ g.opts.Name = "ovo_reading_last" ∧ g.value = reading.Volume)
    ∧ (∀ k2, k2 ≠ point.Mpxn → k2 ≠ point.Mpxn ++ "_age" →
        cacheGet (ScanPoint w o point).1.GaugeCache k2 = cacheGet o.GaugeCache k2)
    ∧ (∀ (w2 : World) (body2 : Body) (rest2 : List GasReading),
        w2.readings (scanPointCalls o.trace) = .response 200 body2 →
        body2.gas = .ok (reading :: rest2) →
        w2.now (scanPointCalls o.trace) = w.now (scanPointCalls o.trace) →
        ScanPoint w2 o point = ScanPoint w o point) := by
  rw [ScanPoint_gas_eq w o point body reading rest hreply hfuel hbody]
  obtain ⟨hframe, hsets, -⟩ := emitAgeIfTimed_frame (w.now (scanPointCalls o.trace))
    (setGas { o with trace := o.trace ++ [Event.scanPoint point] } point reading) point reading.Time
  refine ⟨?_, ?_, ?_, ?_, ?_, ?_⟩
  · rw [hsets]
    simp [setGas, gaugeSet_getOrCreate_trace, valueSets_append, valueSets]
  · unfold gaugeValue
    rw [hframe _ (mpxn_ne_age point.Mpxn)]
    exact setGas_value _ point reading
  · rw [hframe _ (mpxn_ne_age point.Mpxn)]
    simp only [setGas, gaugeSet_getOrCreate_get, getOrCreate_snd]
    cases hc : cacheGet o.GaugeCache point.Mpxn <;> simp
  · intro hname
    rw [hframe _ (mpxn_ne_age point.Mpxn)]
    simp only [setGas, gaugeSet_getOrCreate_get, getOrCreate_snd]
    cases hc : cacheGet o.GaugeCache point.Mpxn with
    | none => simp
    | some g0 => simpa using hname g0 hc
  · intro k2 hk hkage
    rw [hframe _ hkage]
    simp [setGas, gaugeSet_getOrCreate_other _ _ _ _ _ hk]
  · intro w2 body2 rest2 hreply2 hbody2 hnow
    rw [ScanPoint_gas_eq w2 o point body2 reading rest2 hreply2 hfuel hbody2, hnow]

/-- Counterexample to C4 as stated: the electricity point 1900 publishes the age of its
reading, which is cached under "1900_age"; then the gas point whose mpxn is "1900_age" is
scanned. Its volume is set on that age gauge, named ovo_reading_age_seconds and labelled
with mpxn 1900, and no gauge named ovo_reading_last exists afterwards. -/
theorem ScanPoint_gas_sets_age_gauge :
    toLower ageNamedGasPoint.Fuel = "gas"
    ∧ cacheGet (scanMany [(steadyWorld (.response 200 noBody) tierlessTimedReply, electricityPoint),
        (steadyWorld (.response 200 noBody) untimedVolumeReply, ageNamedGasPoint)]
        freshOvo).GaugeCache ageNamedGasPoint.Mpxn
      = some { id := 0,
               opts := { Name := "ovo_reading_age_seconds",
                         ConstLabels := [("fuel", "ELECTRICITY"), ("mpxn", "1900"),
                           ("msn", "E7B")] },
               value := two }
    ∧ (scanMany [(steadyWorld (.response 200 noBody) tierlessTimedReply, electricityPoint),
        (steadyWorld (.response 200 noBody) untimedVolumeReply, ageNamedGasPoint)]
        freshOvo).registered
      = [{ Name := "ovo_reading_age_seconds",
           ConstLabels := [("fuel", "ELECTRICITY"), ("mpxn", "1900"), ("msn", "E7B")] }] := by
  decide

/-- C5, amended. For an electricity supply point (fuel other than gas) and a reply 200
whose first reading has N tiers, `ScanPoint` makes exactly N `Set` calls on value gauges,
one per tier in list order, each on the gauge cached under mpxn, underscore, tier label and
with that tier's register reading. After the call the gauge of a tier label holds the
reading of the last tier carrying that label, unless the label is "age" and the age of the
reading was emitted (the timestamp is non-empty and parses): then `EmitAge` has overwritten
the entry under mpxn "_age", which holds the age of the reading. -/
theorem ScanPoint_electricity_sets_tiers (w : World) (o : Ovo) (point : SupplyPoint) (body : Body)
    (reading : ElectricityReading) (rest : List ElectricityReading)
    (hreply : w.readings (scanPointCalls o.trace) = .response 200 body)
    (hfuel : toLower point.Fuel ≠ "gas")
    (hbody : body.electricity = .ok (reading :: rest)) :
    valueSets (ScanPoint w o point).1.trace
      = valueSets o.trace
        ++ reading.Tiers.map (fun t => (point.Mpxn ++ "_" ++ t.Label, t.Reading))
    ∧ (∀ (pre post : List ElectricityTierReading) (tier : ElectricityTierReading),
        reading.Tiers = pre ++ tier :: post →
        (∀ t ∈ post, t.Label ≠ tier.Label) →
        (tier.Label = "age" →
          reading.Time = "" ∨ ∃ cause, timeParse reading.Time = .error cause) →
        gaugeValue (ScanPoint w o point).1 (point.Mpxn ++ "_" ++ tier.Label)
          = some tier.Reading)
    ∧ (∀ readingDate : Instant,
        reading.Time ≠ "" → timeParse reading.Time = .ok readingDate →
        gaugeValue (ScanPoint w o point).1 (point.Mpxn ++ "_age")
          = some (Float64.seconds (Sub (w.now (scanPointCalls o.trace)) readingDate))
        ∧ ∀ tier ∈ reading.Tiers, tier.Label = "age" →
            gaugeValue (ScanPoint w o point).1 (point.Mpxn ++ "_" ++ tier.Label)
              = some (Float64.seconds (Sub (w.now (scanPointCalls o.trace)) readingDate))) := by
  rw [ScanPoint_electricity_eq w o point body reading rest hreply hfuel hbody]
  refine ⟨?_, ?_, ?_⟩
  · rw [(emitAgeIfTimed_frame _ _ point reading.Time).2.1, setTiers_valueSets]
    simp [valueSets_append, valueSets]
  · intro pre post tier hsplit hpost hage
    by_cases hl : tier.Label = "age"
    · rw [emitAgeIfTimed_untimed _ _ point reading.Time (hage hl), hsplit]
      exact setTiers_last_value point pre post tier _ hpost
    · unfold gaugeValue
      rw [(emitAgeIfTimed_frame _ _ point reading.Time).1 _ (tier_ne_age point.Mpxn tier.Label hl),
        hsplit]
      exact setTiers_last_value point pre post tier _ hpost
  · intro readingDate ht hp
    have hv := emitAgeIfTimed_value (w.now (scanPointCalls o.trace))
      (setTiers point reading.Tiers { o with trace := o.trace ++ [Event.scanPoint point] })
      point reading.Time readingDate ht hp
    refine ⟨hv, ?_⟩
    intro tier _ hl
    have hkey : point.Mpxn ++ "_" ++ tier.Label = point.Mpxn ++ "_age" := by
      rw [hl, String.append_assoc]
      rfl
    rw [hkey]
    exact hv

/-- Witness for C4: a gas point with two readings in an empty cache. -/
theorem ScanPoint_gas_sets_first_volume_witness :
    valueSets (ScanPoint (steadyWorld (.response 200 noBody) gasReply) freshOvo gasPoint).1.trace
      = [("7401", two)]
    ∧ gaugeValue (ScanPoint (steadyWorld (.response 200 noBody) gasReply) freshOvo gasPoint).1 "7401"
      = some two := by
  have h := ScanPoint_gas_sets_first_volume (steadyWorld (.response 200 noBody) gasReply) freshOvo
    gasPoint { noBody with gas := .ok gasReadings } { Volume := two, Time := "2023-06-15T01:00:00" }
    [{ Volume := one, Time := "2023-06-14T01:00:00" }] rfl (by decide) rfl
  exact ⟨h.1, h.2.1⟩

/-- Counterexample to C5 as stated, at two inputs. With two tiers labelled "day", the gauge
of the label holds the second reading after the call, not the first tier's. With a single
tier labelled "age" and a timestamp that parses, the gauge of the label holds the age of
the reading (3600 seconds) after the call, not the tier's reading. -/
theorem ScanPoint_electricity_value_overwritten :
    ¬ (∀ tier ∈ repeatedTierReading.Tiers,
        gaugeValue (ScanPoint (steadyWorld (.response 200 noBody) repeatedTierReply) freshOvo
          electricityPoint).1 (electricityPoint.Mpxn ++ "_" ++ tier.Label) = some tier.Reading)
    ∧ ¬ (∀ tier ∈ timedAgeTierReading.Tiers,
        gaugeValue (ScanPoint (steadyWorld (.response 200 noBody) timedAgeTierReply) freshOvo
          electricityPoint).1 (electricityPoint.Mpxn ++ "_" ++ tier.Label) = some tier.Reading)
    ∧ gaugeValue (ScanPoint (steadyWorld (.response 200 noBody) repeatedTierReply) freshOvo
        electricityPoint).1 "1900_day" = some two
    ∧ gaugeValue (ScanPoint (steadyWorld (.response 200 noBody) timedAgeTierReply) freshOvo
        electricityPoint).1 "1900_age" = some (Float64.seconds 3600000000000) := by
  decide

/-- Witness for C5: a day and a night tier in an empty cache, timestamped one hour before
the clock. -/
theorem ScanPoint_electricity_sets_tiers_witness :
    valueSets (ScanPoint (steadyWorld (.response 200 noBody) dayNightReply) freshOvo
        electricityPoint).1.trace = [("1900_day", one), ("1900_night", two)]
    ∧ gaugeValue (ScanPoint (steadyWorld (.response 200 noBody) dayNightReply) freshOvo
        electricityPoint).1 "1900_day" = some one
    ∧ gaugeValue (ScanPoint (steadyWorld (.response 200 noBody) dayNightReply) freshOvo
        electricityPoint).1 "1900_age" = some (Float64.seconds 3600000000000) := by
  have h := ScanPoint_electricity_sets_tiers (steadyWorld (.response 200 noBody) dayNightReply)
    freshOvo electricityPoint { noBody with electricity := .ok [dayNightReading] } dayNightReading []
    rfl (by decide) rfl
  exact ⟨h.1, h.2.1 [] [{ Reading := two, Label := "night" }] { Reading := one, Label := "day" } rfl
    (by decide) (fun hl => absurd hl (by decide)),
    (h.2.2 { sec := 1686790800, nsec := 0 } (by decide) (by decide)).1⟩

/-- Counterexample to C7 as stated: an electricity point whose first reading has a tier
labelled "age" and a timestamp that fails to parse. `ScanPoint` returns an error, yet the
cache, which had no entry under mpxn followed by "_age", has one afterwards. -/
theorem ScanPoint_age_tier_creates_age_entry :
    ageTierReading.Time ≠ ""
    ∧ timeParse ageTierReading.Time = .error "cannot parse year"
    ∧ (ScanPoint (steadyWorld (.response 200 noBody) ageTierReply) freshOvo electricityPoint).2 ≠ none
    ∧ cacheGet freshOvo.GaugeCache (electricityPoint.Mpxn ++ "_age") = none
    ∧ cacheGet (ScanPoint (steadyWorld (.response 200 noBody) ageTierReply) freshOvo
        electricityPoint).1.GaugeCache (electricityPoint.Mpxn ++ "_age")
      = some { id := 0,
               opts := { Name := "ovo_reading_last",
                         ConstLabels := [("fuel", "ELECTRICITY"), ("tier", "age"),
                           ("mpxn", "1900"), ("msn", "E7B")] },
               value := one } := by
  decide

/-- C7, amended. Let the reply be 200 and the first reading carry a non-empty timestamp that
fails to parse. For a gas point and for an electricity point alike, `ScanPoint` returns the
parse error wrapped as "failed to emit age", the value gauges of the point hold the first
reading's values (the volume; for each tier label the reading of the last tier carrying
it), `EmitAge` sets no gauge, and every gauge registered by the call is a value gauge, so no
age gauge is created. The cache entry under mpxn followed by "_age" is what it was before
(absent if it was absent), except for an electricity reading with a tier labelled "age",
whose value gauge is that very entry. -/
theorem ScanPoint_unparsable_timestamp (w : World) (o : Ovo) (point : SupplyPoint) (body : Body)
    (time cause : String)
    (hreply : w.readings (scanPointCalls o.trace) = .response 200 body)
    (htime : time ≠ "")
    (hparse : timeParse time = .error cause) :
    (∀ (volume : Float64) (rest : List GasReading),
      toLower point.Fuel = "gas" →
      body.gas = .ok ({ Volume := volume, Time := time } :: rest) →
      (ScanPoint w o point).2 = some (.emitAge (.parseReadingTime time cause))
      ∧ gaugeValue (ScanPoint w o point).1 point.Mpxn = some volume
      ∧ cacheGet (ScanPoint w o point).1.GaugeCache (point.Mpxn ++ "_age")
          = cacheGet o.GaugeCache (point.Mpxn ++ "_age")
      ∧ ageSets (ScanPoint w o point).1.trace = ageSets o.trace
      ∧ ∃ new, (ScanPoint w o point).1.registered = o.registered ++ new
          ∧ ∀ g ∈ new, g.Name = "ovo_reading_last")
    ∧ (∀ (tiers : List ElectricityTierReading) (rest : List ElectricityReading),
      toLower point.Fuel ≠ "gas" →
      body.electricity = .ok ({ Tiers := tiers, Time := time } :: rest) →
      (ScanPoint w o point).2 = some (.emitAge (.parseReadingTime time cause))
      ∧ (∀ (pre post : List ElectricityTierReading) (tier : ElectricityTierReading),
          tiers = pre ++ tier :: post → (∀ t ∈ post, t.Label ≠ tier.Label) →
          gaugeValue (ScanPoint w o point).1 (point.Mpxn ++ "_" ++ tier.Label) = some tier.Reading)
      ∧ ((∀ t ∈ tiers, t.Label ≠ "age") →
          cacheGet (ScanPoint w o point).1.GaugeCache (point.Mpxn ++ "_age")
            = cacheGet o.GaugeCache (point.Mpxn ++ "_age"))
      ∧ ageSets (ScanPoint w o point).1.trace = ageSets o.trace
      ∧ ∃ new, (ScanPoint w o point).1.registered = o.registered ++ new
          ∧ ∀ g ∈ new, g.Name = "ovo_reading_last") := by
  refine ⟨?_, ?_⟩
  · intro volume rest hfuel hbody
    have heq : ScanPoint w o point
        = (setGas { o with trace := o.trace ++ [Event.scanPoint point] } point
            { Volume := volume, Time := time }, some (.emitAge (.parseReadingTime time cause))) := by
      rw [ScanPoint_gas_eq w o point body _ rest hreply hfuel hbody]
      simp [emitAgeIfTimed, htime, EmitAge, hparse]
    rw [heq]
    refine ⟨rfl, setGas_value _ point _, ?_, ?_, ?_⟩
    · simp [setGas, gaugeSet_getOrCreate_other _ _ _ _ _ (mpxn_ne_age point.Mpxn).symm]
    · simp [setGas, gaugeSet_getOrCreate_trace, ageSets_append, ageSets]
    · refine ⟨if cacheGet o.GaugeCache point.Mpxn = none then
        [{ Name := "ovo_reading_last",
           ConstLabels := [("fuel", point.Fuel), ("tier", "default"), ("mpxn", point.Mpxn),
             ("msn", point.Msn)] }] else [], ?_, ?_⟩
      · simp only [setGas, gaugeSet_getOrCreate_registered]
      · intro g hg
        split at hg
        · simp only [List.mem_singleton] at hg
          rw [hg]
        · simp at hg
  · intro tiers rest hfuel hbody
    have heq : ScanPoint w o point
        = (setTiers point tiers { o with trace := o.trace ++ [Event.scanPoint point] },
            some (.emitAge (.parseReadingTime time cause))) := by
      rw [ScanPoint_electricity_eq w o point body _ rest hreply hfuel hbody]
      simp [emitAgeIfTimed, htime, EmitAge, hparse]
    rw [heq]
    refine ⟨rfl, ?_, ?_, ?_, ?_⟩
    · intro pre post tier hsplit hpost
      rw [hsplit]
      exact setTiers_last_value point pre post tier _ hpost
    · intro hlabels
      exact setTiers_other point tiers _ _
        (fun t ht => (tier_ne_age point.Mpxn t.Label (hlabels t ht)).symm)
    · simp [setTiers_ageSets, ageSets_append, ageSets]
    · exact setTiers_registered point tiers _

/-- Witness for C7: a gas point and an electricity point, each with the timestamp "yesterday". -/
theorem ScanPoint_unparsable_timestamp_witness :
    gaugeValue (ScanPoint (steadyWorld (.response 200 noBody) untimedGasReply) freshOvo gasPoint).1
        "7401" = some two
    ∧ cacheGet (ScanPoint (steadyWorld (.response 200 noBody) untimedDayNightReply) freshOvo
        electricityPoint).1.GaugeCache "1900_age" = none
    ∧ (ScanPoint (steadyWorld (.response 200 noBody) ageTierReply) freshOvo electricityPoint).2
        = some (.emitAge (.parseReadingTime "yesterday" "cannot parse year"))
    ∧ ageSets (ScanPoint (steadyWorld (.response 200 noBody) ageTierReply) freshOvo
        electricityPoint).1.trace = [] := by
  have hg := (ScanPoint_unparsable_timestamp (steadyWorld (.response 200 noBody) untimedGasReply)
    freshOvo gasPoint { noBody with gas := .ok [{ Volume := two, Time := "yesterday" }] }
    "yesterday" "cannot parse year" rfl (by decide) (by decide)).1 two [] (by decide) rfl
  have he := (ScanPoint_unparsable_timestamp
    (steadyWorld (.response 200 noBody) untimedDayNightReply) freshOvo electricityPoint
    { noBody with electricity := .ok [{ dayNightReading with Time := "yesterday" }] }
    "yesterday" "cannot parse year" rfl (by decide) (by decide)).2
    [{ Reading := one, Label := "day" }, { Reading := two, Label := "night" }] []
    (by decide) rfl
  have ha := (ScanPoint_unparsable_timestamp
    (steadyWorld (.response 200 noBody) ageTierReply) freshOvo electricityPoint
    { noBody with electricity := .ok [ageTierReading] }
    "yesterday" "cannot parse year" rfl (by decide) (by decide)).2
    [{ Reading := one, Label := "age" }] [] (by decide) rfl
  exact ⟨hg.2.1, he.2.2.1 (by decide), ha.1, ha.2.2.2.1⟩

/-- C9. When the readings fetch is answered 200 with an empty reading list, for a gas or an
electricity point and any cache, `ScanPoint` returns nil and changes nothing but the record
of the call itself: the login flag, the cache with every gauge and value in it, and the
registry stay as they are, and no gauge is set. Running it again on another empty list
again changes nothing. -/
theorem ScanPoint_empty_readings (w : World) (o : Ovo) (point : SupplyPoint) (body : Body)
    (hreply : w.readings (scanPointCalls o.trace) = .response 200 body)
    (hempty : (toLower point.Fuel = "gas" ∧ body.gas = .ok [])
      ∨ (toLower point.Fuel ≠ "gas" ∧ body.electricity = .ok [])) :
    ScanPoint w o point = ({ o with trace := o.trace ++ [Event.scanPoint point] }, none)
    ∧ (ScanPoint w o point).1.GaugeCache = o.GaugeCache
    ∧ (ScanPoint w o point).1.registered = o.registered
    ∧ valueSets (ScanPoint w o point).1.trace = valueSets o.trace
    ∧ ageSets (ScanPoint w o point).1.trace = ageSets o.trace
    ∧ (∀ (w2 : World) (body2 : Body),
        w2.readings (scanPointCalls o.trace + 1) = .response 200 body2 →
        ((toLower point.Fuel = "gas" ∧ body2.gas = .ok [])
          ∨ (toLower point.Fuel ≠ "gas" ∧ body2.electricity = .ok [])) →
        (ScanPoint w2 (ScanPoint w o point).1 point).2 = none
        ∧ (ScanPoint w2 (ScanPoint w o point).1 point).1.GaugeCache = o.GaugeCache
        ∧ (ScanPoint w2 (ScanPoint w o point).1 point).1.registered = o.registered
        ∧ (ScanPoint w2 (ScanPoint w o point).1 point).1.LoggedIn = o.LoggedIn) := by
  have key : ∀ (w1 : World) (o1 : Ovo) (body1 : Body),
      w1.readings (scanPointCalls o1.trace) = .response 200 body1 →
      ((toLower point.Fuel = "gas" ∧ body1.gas = .ok [])
        ∨ (toLower point.Fuel ≠ "gas" ∧ body1.electricity = .ok [])) →
      ScanPoint w1 o1 point = ({ o1 with trace := o1.trace ++ [Event.scanPoint point] }, none) := by
    intro w1 o1 body1 h1 h2
    rcases h2 with ⟨hf, hb⟩ | ⟨hf, hb⟩
    · simp [ScanPoint, h1, hf, hb]
    · simp [ScanPoint, h1, hf, hb]
  have h1 := key w o body hreply hempty
  rw [h1]
  refine ⟨rfl, rfl, rfl, ?_, ?_, ?_⟩
  · simp [valueSets_append, valueSets]
  · simp [ageSets_append, ageSets]
  · intro w2 body2 hreply2 hempty2
    have h2 := key w2 { o with trace := o.trace ++ [Event.scanPoint point] } body2
      (by rw [scanPointCalls_snoc]; exact hreply2) hempty2
    rw [h2]
    exact ⟨rfl, rfl, rfl, rfl⟩

/-- Witness for C9: a gas point, a cache that already holds its gauge, an empty reading list. -/
theorem ScanPoint_empty_readings_witness :
    (ScanPoint (steadyWorld (.response 200 noBody) (.response 200 noBody))
      (ScanPoint (steadyWorld (.response 200 noBody) gasReply) freshOvo gasPoint).1 gasPoint).2 = none
    ∧ gaugeValue (ScanPoint (steadyWorld (.response 200 noBody) (.response 200 noBody))
      (ScanPoint (steadyWorld (.response 200 noBody) gasReply) freshOvo gasPoint).1 gasPoint).1
        "7401" = some two := by
  have h := ScanPoint_empty_readings (steadyWorld (.response 200 noBody) (.response 200 noBody))
    (ScanPoint (steadyWorld (.response 200 noBody) gasReply) freshOvo gasPoint).1 gasPoint noBody
    rfl (Or.inl ⟨by decide, rfl⟩)
  refine ⟨by rw [h.1], ?_⟩
  unfold gaugeValue
  rw [h.2.1]
  decide

/-- Counterexample to C10 as stated: the tier "00_day" of the point "19" and the tier "day"
of the point "19_00" are different identities with the same cache key, and scanning the two
points in turn registers a single gauge, which ends up with the second point's reading. -/
theorem cacheName_collision :
    MetricIdentity.tierValue "19" "00_day" ≠ MetricIdentity.tierValue "19_00" "day"
    ∧ (MetricIdentity.tierValue "19" "00_day").cacheName
        = (MetricIdentity.tierValue "19_00" "day").cacheName
    ∧ (scanMany [(collidingWorld, shortPoint), (collidingWorld, longPoint)] freshOvo).registered
        = [{ Name := "ovo_reading_last",
             ConstLabels := [("fuel", "ELECTRICITY"), ("tier", "00_day"), ("mpxn", "19"),
               ("msn", "E1")] }]
    ∧ gaugeValue (scanMany [(collidingWorld, shortPoint), (collidingWorld, longPoint)] freshOvo)
        "19_00_day" = some two := by
  decide

/-- C10, amended. On identities whose mpxn contains no underscore and whose tier label is
not "age", the cache-key encoding is injective: two different identities get different
keys (mpxn for a gas value, mpxn underscore label for a tier value, mpxn "_age" for an age). -/
theorem cacheName_injective_on_plain (a b : MetricIdentity) (ha : a.Plain) (hb : b.Plain)
    (hne : a ≠ b) : a.cacheName ≠ b.cacheName := by
  intro h
  have hd := congrArg String.data h
  cases a with
  | gasValue m1 =>
    cases b with
    | gasValue m2 => exact hne (by rw [show m1 = m2 from h])
    | tierValue m2 l2 =>
      simp only [MetricIdentity.cacheName, tierKey_data] at hd
      exact ha (hd ▸ List.mem_append_right _ (List.mem_cons_self _ _))
    | age m2 =>
      simp only [MetricIdentity.cacheName, ageKey_data] at hd
      exact ha (hd ▸ List.mem_append_right _ (List.mem_cons_self _ _))
  | tierValue m1 l1 =>
    cases b with
    | gasValue m2 =>
      simp only [MetricIdentity.cacheName, tierKey_data] at hd
      exact hb (hd ▸ List.mem_append_right _ (List.mem_cons_self _ _))
    | tierValue m2 l2 =>
      simp only [MetricIdentity.cacheName, tierKey_data] at hd
      obtain ⟨hm, hl⟩ := split_at_underscore _ _ _ _ ha.1 hb.1 hd
      exact hne (by rw [String.ext hm, String.ext hl])
    | age m2 =>
      simp only [MetricIdentity.cacheName, tierKey_data, ageKey_data] at hd
      obtain ⟨-, hl⟩ := split_at_underscore _ _ _ _ ha.1 hb hd
      exact ha.2 (String.ext hl)
  | age m1 =>
    cases b with
    | gasValue m2 =>
      simp only [MetricIdentity.cacheName, ageKey_data] at hd
      exact hb (hd ▸ List.mem_append_right _ (List.mem_cons_self _ _))
    | tierValue m2 l2 =>
      simp only [MetricIdentity.cacheName, tierKey_data, ageKey_data] at hd
      obtain ⟨-, hl⟩ := split_at_underscore _ _ _ _ ha hb.1 hd
      exact hb.2 (String.ext hl.symm)
    | age m2 =>
      simp only [MetricIdentity.cacheName, ageKey_data] at hd
      obtain ⟨hm, -⟩ := split_at_underscore _ _ _ _ ha hb hd
      exact hne (by rw [String.ext hm])

/-- Witness for C10: the gas value and the age of the point "7401". -/
theorem cacheName_injective_on_plain_witness :
    (MetricIdentity.gasValue "7401").cacheName ≠ (MetricIdentity.age "7401").cacheName :=
  cacheName_injective_on_plain (.gasValue "7401") (.age "7401")
    (by show '_' ∉ "7401".data; decide) (by show '_' ∉ "7401".data; decide) (by decide)

/-- C1: the code at the failing input. Login succeeds, the points fetch lists one point,
and the readings fetch for it is answered 500 on every call, so `ScanPoint` fails for that
point on every attempt. `Scan` makes a single attempt (one `LoadPoints`, one `ScanPoint`,
no sleep) and returns nil: line 85 overwrites the error recorded at line 81. -/
theorem Scan_ignores_failed_point :
    (ScanPoint (steadyWorld onePointReply (refusal 500))
        { freshOvo with LoggedIn := true, trace := [Event.login, Event.loadPoints] } gasPoint).2
      = some (.queryReadingsStatus 500 "no")
    ∧ (Scan (steadyWorld onePointReply (refusal 500)) freshOvo).2 = none
    ∧ (Scan (steadyWorld onePointReply (refusal 500)) freshOvo).1.trace
      = [Event.login, Event.loadPoints, Event.scanPoint gasPoint] := by
  decide

/-- C3: the code at the failing input. The readings fetch of `ScanPoint` is answered 401.
`LoggedIn` is false afterwards, but the same `Scan` makes no further attempt: it returns
nil after one `Login`, one `LoadPoints` and one `ScanPoint`, without logging in again and
without re-issuing the readings fetch, although two attempts remain. The sibling path does
retry: a 401 on the supply-points fetch clears `LoggedIn`, and the next attempt sleeps, logs
in again and re-issues the fetch. -/
theorem Scan_no_retry_after_readings_401 :
    (Scan (steadyWorld onePointReply (refusal 401)) freshOvo).1.LoggedIn = false
    ∧ (Scan (steadyWorld onePointReply (refusal 401)) freshOvo).2 = none
    ∧ (Scan (steadyWorld onePointReply (refusal 401)) freshOvo).1.trace
      = [Event.login, Event.loadPoints, Event.scanPoint gasPoint]
    ∧ (LoadPoints expiredWorld { freshOvo with LoggedIn := true }).1.LoggedIn = false
    ∧ (Scan expiredWorld freshOvo).1.trace.take 6
      = [Event.login, Event.loadPoints, Event.sleep, Event.login, Event.loadPoints,
          Event.scanPoint gasPoint] := by
  decide

/-- C6: the code at the failing input. The layout's hour chunk is `03`, the hour of the
12-hour clock, so the well-formed timestamp 2023-06-15T13:00:00 is rejected with "hour out
of range": `EmitAge` returns an error and sets no gauge. A timestamp with an hour up to 12
parses: 2023-06-15T01:00:00 read at 02:00:00 gives an age of 3600 seconds. -/
theorem EmitAge_rejects_hour_13 :
    timeParse "2023-06-15T13:00:00" = .error "hour out of range"
    ∧ EmitAge { sec := 1686794400, nsec := 0 } freshOvo gasPoint "2023-06-15T13:00:00"
      = (freshOvo, some (.parseReadingTime "2023-06-15T13:00:00" "hour out of range"))
    ∧ timeParse "2023-06-15T01:00:00" = .ok { sec := 1686790800, nsec := 0 }
    ∧ gaugeValue (EmitAge { sec := 1686794400, nsec := 0 } freshOvo gasPoint
        "2023-06-15T01:00:00").1 "7401_age" = some (Float64.seconds 3600000000000) := by
  decide

/-- C2. In a run where every login succeeds: if `LoadPoints` fails on attempts 1 and 2 and
succeeds on attempt 3, `Scan` returns nil (whether or not the points then scan without
error); if `LoadPoints` fails on all three attempts, `Scan` returns the error "failed to
load points" built from the third failure. In both cases `LoadPoints` is called exactly
three times, never a fourth. -/
theorem Scan_retries_LoadPoints (w : World) (o : Ovo)
    (hlogin : ∀ k, k < 3 → loginResult (w.login k) = none) :
    (∀ (e0 e1 : Error) (points : List SupplyPoint),
      loadPointsResult (w.points 0) = .error e0 →
      loadPointsResult (w.points 1) = .error e1 →
      loadPointsResult (w.points 2) = .ok points →
      (Scan w o).2 = none ∧ loadPointsCalls (Scan w o).1.trace = 3)
    ∧ (∀ (e0 e1 e2 : Error),
      loadPointsResult (w.points 0) = .error e0 →
      loadPointsResult (w.points 1) = .error e1 →
      loadPointsResult (w.points 2) = .error e2 →
      (Scan w o).2 = some (.failedToLoadPoints e2) ∧ loadPointsCalls (Scan w o).1.trace = 3) := by
  have start : loginCalls ({ o with trace := [] } : Ovo).trace = 0
      ∧ loadPointsCalls ({ o with trace := [] } : Ovo).trace = 0 := ⟨rfl, rfl⟩
  refine ⟨?_, ?_⟩
  · intro e0 e1 points h0 h1 h2
    obtain ⟨oa, ha, hpa, hla⟩ := scanLoop_points_failed w 2 { o with trace := [] } none e0
      (by rw [start.1]; exact hlogin 0 (by decide)) (by rw [start.2]; exact h0)
    rw [start.2] at hpa
    rw [start.1] at hla
    obtain ⟨ob, hb, hpb, hlb⟩ := scanLoop_points_failed w 1 oa (some (.failedToLoadPoints e0)) e1
      (hlogin _ (by omega)) (by rw [hpa]; exact h1)
    rw [hpa] at hpb
    obtain ⟨oc, hc, hpc⟩ := scanLoop_points_loaded w 0 ob (some (.failedToLoadPoints e1)) points
      (hlogin _ (by omega)) (by rw [hpb]; exact h2)
    have hscan : Scan w o = (oc, none) := by
      unfold Scan
      rw [ha, hb, hc]
    rw [hscan]
    exact ⟨rfl, by rw [hpc, hpb]⟩
  · intro e0 e1 e2 h0 h1 h2
    obtain ⟨oa, ha, hpa, hla⟩ := scanLoop_points_failed w 2 { o with trace := [] } none e0
      (by rw [start.1]; exact hlogin 0 (by decide)) (by rw [start.2]; exact h0)
    rw [start.2] at hpa
    rw [start.1] at hla
    obtain ⟨ob, hb, hpb, hlb⟩ := scanLoop_points_failed w 1 oa (some (.failedToLoadPoints e0)) e1
      (hlogin _ (by omega)) (by rw [hpa]; exact h1)
    rw [hpa] at hpb
    obtain ⟨oc, hc, hpc, -⟩ := scanLoop_points_failed w 0 ob (some (.failedToLoadPoints e1)) e2
      (hlogin _ (by omega)) (by rw [hpb]; exact h2)
    have hscan : Scan w o = (oc, some (.failedToLoadPoints e2)) := by
      unfold Scan
      rw [ha, hb, hc]
      rfl
    rw [hscan]
    exact ⟨rfl, by rw [hpc, hpb]⟩

/-- Witness for C2: a supply-points endpoint that answers 500 twice and then lists a point,
and one that answers 500 every time. -/
theorem Scan_retries_LoadPoints_witness :
    (Scan flakyWorld freshOvo).2 = none
    ∧ loadPointsCalls (Scan flakyWorld freshOvo).1.trace = 3
    ∧ (Scan (steadyWorld (refusal 500) gasReply) freshOvo).2
      = some (.failedToLoadPoints (.supplyPointsQueryFailed 500 "no")) :=
  ⟨((Scan_retries_LoadPoints flakyWorld freshOvo (fun _ _ => rfl)).1
      (.supplyPointsQueryFailed 500 "no") (.supplyPointsQueryFailed 500 "no") [gasPoint]
      rfl rfl rfl).1,
   ((Scan_retries_LoadPoints flakyWorld freshOvo (fun _ _ => rfl)).1
      (.supplyPointsQueryFailed 500 "no") (.supplyPointsQueryFailed 500 "no") [gasPoint]
      rfl rfl rfl).2,
   ((Scan_retries_LoadPoints (steadyWorld (refusal 500) gasReply) freshOvo (fun _ _ => rfl)).2
      (.supplyPointsQueryFailed 500 "no") (.supplyPointsQueryFailed 500 "no")
      (.supplyPointsQueryFailed 500 "no") rfl rfl rfl).1⟩

end OvoGauge
